import Mathlib

/-!
Verification development for the `json-valid` structural validator
(`src/validator.ts`, `src/string-format.ts`, `src/types.ts`).

The TypeScript source is shallowly embedded: JSON-like runtime values
become the inductive `Json`, JavaScript numbers become `JsNum`
(NaN / signed infinities / finite rationals), schema nodes become the
inductive `JsonSchema`, and each source function is translated into a
Lean function of the same name.  Host-platform operations that the
source delegates to (JavaScript `RegExp`, `Array.prototype.includes`,
the `in` operator, WHATWG `URL`) are modelled explicitly by small Lean
functions whose doc comments state the modelled fragment.
-/

set_option maxHeartbeats 2000000
set_option maxRecDepth 4000
set_option linter.unusedVariables false

namespace JsonValid

/-- A single-quote character (U+0027), used to build the validator's
failure messages such as `Missing required property 'x'`. -/
def sq : String := String.mk [Char.ofNat 39]

/-- JavaScript numbers as the validator observes them: `NaN`, the two
infinities, or a finite value.  Finite doubles are modelled as rationals;
this preserves ordering, integrality (`Number.isInteger`) and equality,
which is all the validator inspects. -/
inductive JsNum where
  | nan : JsNum
  | inf (neg : Bool) : JsNum
  | fin (q : ℚ) : JsNum
deriving DecidableEq, Repr

/-- JSON-compatible runtime values (plus the non-finite numbers a caller
can pass): the domain of `data : unknown` that the validator classifies.
Objects are modelled by their own enumerable properties in key order,
which is what `Object.keys` / `Object.entries` / `Object.hasOwn`
enumerate in the source. -/
inductive Json where
  | null : Json
  | bool (b : Bool) : Json
  | num (x : JsNum) : Json
  | str (s : String) : Json
  | arr (elems : List Json) : Json
  | obj (fields : List (String × Json)) : Json
deriving Repr

/-- Primitive schema values: `JsonSchemaPrimitive = string | number | boolean | null`
from `types.ts`, used by `const` and `enum`. -/
inductive Prim where
  | str (s : String) : Prim
  | num (x : JsNum) : Prim
  | bool (b : Bool) : Prim
  | null : Prim
deriving DecidableEq, Repr

/-- The seven schema kind names of `JsonSchemaType` in `types.ts`. -/
inductive JsonKind where
  | object | array | string | number | integer | boolean | null
deriving DecidableEq, Repr

/-- Rendering of a kind name, as it appears inside messages. -/
def kindName : JsonKind → String
  | .object => "object"
  | .array => "array"
  | .string => "string"
  | .number => "number"
  | .integer => "integer"
  | .boolean => "boolean"
  | .null => "null"

/-- `getDataKind` from `validator.ts`: `null` first, then arrays, then
`typeof`.  On JSON-compatible values `typeof` yields `object`, `string`,
`number` or `boolean`. -/
def getDataKind : Json → JsonKind
  | .null => .null
  | .arr _ => .array
  | .obj _ => .object
  | .str _ => .string
  | .num _ => .number
  | .bool _ => .boolean

/-- JavaScript `typeof` (as opposed to `getDataKind`): `typeof null`
is `"object"` and arrays are `"object"` too.  Used by `isEnumMismatch`. -/
def jsTypeof : Json → JsonKind
  | .null => .object
  | .arr _ => .object
  | .obj _ => .object
  | .str _ => .string
  | .num _ => .number
  | .bool _ => .boolean

/-- JavaScript `<` on numbers: any comparison involving `NaN` is false;
`-Infinity` is below and `Infinity` above every other number. -/
def jsLt : JsNum → JsNum → Bool
  | .nan, _ => false
  | _, .nan => false
  | .inf true, .inf true => false
  | .inf true, _ => true
  | _, .inf true => false
  | .inf false, _ => false
  | _, .inf false => true
  | .fin a, .fin b => decide (a < b)

/-- JavaScript `>` on numbers. -/
def jsGt (a b : JsNum) : Bool := jsLt b a

/-- `Number.isFinite`. -/
def JsNum.finite : JsNum → Bool
  | .fin _ => true
  | _ => false

/-- `Number.isInteger` on an arbitrary value: false unless the value is a
finite number that is mathematically integral. -/
def jsIsInteger : Json → Bool
  | .num (.fin q) => q.den == 1
  | _ => false

/-- Strict equality (`===`) between two numbers: `NaN` equals nothing,
including itself. -/
def jsNumStrictEq : JsNum → JsNum → Bool
  | .nan, _ => false
  | _, .nan => false
  | .inf a, .inf b => a == b
  | .fin a, .fin b => a == b
  | _, _ => false

/-- SameValueZero on numbers, the comparison used by
`Array.prototype.includes`: identical to `===` except that `NaN`
matches `NaN`. -/
def jsNumSameValueZero : JsNum → JsNum → Bool
  | .nan, .nan => true
  | .nan, _ => false
  | _, .nan => false
  | .inf a, .inf b => a == b
  | .fin a, .fin b => a == b
  | _, _ => false

/-- Strict equality (`===`) between a data value and a schema primitive.
Values of different runtime types are never strictly equal; objects and
arrays are compared by reference and so never equal a schema-held
primitive. -/
def jsStrictEq : Json → Prim → Bool
  | .null, .null => true
  | .str a, .str b => a == b
  | .bool a, .bool b => a == b
  | .num a, .num b => jsNumStrictEq a b
  | _, _ => false

/-- SameValueZero between a data value and a schema primitive: the
semantics of `schema.enum.includes(data)`. -/
def sameValueZero : Json → Prim → Bool
  | .null, .null => true
  | .str a, .str b => a == b
  | .bool a, .bool b => a == b
  | .num a, .num b => jsNumSameValueZero a b
  | _, _ => false

/-- JavaScript number-to-string conversion as used in template literals.
Integral values print in decimal, exactly as JavaScript does; the
rendering of non-integral finite values (which JavaScript prints as
shortest round-trip decimals) is approximated by `num/den` — no theorem
below inspects a message containing a non-integral number. -/
def jsNumToString : JsNum → String
  | .nan => "NaN"
  | .inf true => "-Infinity"
  | .inf false => "Infinity"
  | .fin q => if q.den = 1 then toString q.num else toString q.num ++ "/" ++ toString q.den

/-- Path components accumulated during traversal (`ErrorPath` in
`types.ts`): property names and array indices.  Array indices are loop
counters in the source and hence always non-negative. -/
inductive PathSeg where
  | key (s : String) : PathSeg
  | idx (n : Nat) : PathSeg
deriving DecidableEq, Repr

/-- `ErrorPath` from `types.ts`. -/
abbrev ErrorPath := List PathSeg

/-- The failure variant of `ValidationResult`: `{ok: false, path, message, received?}`.
`received = none` models an absent `received` field. -/
structure ValidationError where
  path : ErrorPath
  message : String
  received : Option Json
deriving Repr

/-- `ValidationResult` from `types.ts`: success, or exactly one failure. -/
inductive ValidationResult where
  | ok : ValidationResult
  | err (e : ValidationError) : ValidationResult
deriving Repr

/-- The observable outcome of one validator invocation.  The source can
also *throw* (only from `new RegExp` on a malformed pattern); a thrown
`SyntaxError` is modelled as `Except.error` carrying the offending
pattern string. -/
abbrev VRes := Except String ValidationResult

/-- `fail` from `validator.ts`. -/
def fail (message : String) (path : ErrorPath) (received : Option Json := none) :
    ValidationResult :=
  .err ⟨path, message, received⟩

/-!
## Regular expressions

The source delegates matching to the JavaScript `RegExp` engine
(`new RegExp(schema.pattern)` and the literal regexes of
`string-format.ts`).  That engine is modelled by a small classical
regular-expression type with Brzozowski-derivative matching.  Whole
regexes are built as terms mirroring the source's regex literals;
caller-supplied `pattern` strings are compiled by `compilePattern`
below, which covers a documented fragment of JavaScript syntax.
-/

/-- Regular expressions over characters: empty language, empty string,
a character class, concatenation, alternation, Kleene star. -/
inductive RE where
  | emp : RE
  | eps : RE
  | cls (p : Char → Bool) : RE
  | cat (a b : RE) : RE
  | alt (a b : RE) : RE
  | star (r : RE) : RE

/-- Does the regex accept the empty string? -/
def RE.nullable : RE → Bool
  | .emp => false
  | .eps => true
  | .cls _ => false
  | .cat a b => a.nullable && b.nullable
  | .alt a b => a.nullable || b.nullable
  | .star _ => true

/-- Brzozowski derivative with respect to one character. -/
def RE.deriv : RE → Char → RE
  | .emp, _ => .emp
  | .eps, _ => .emp
  | .cls p, c => if p c then .eps else .emp
  | .cat a b, c =>
      if a.nullable then .alt (.cat (a.deriv c) b) (b.deriv c) else .cat (a.deriv c) b
  | .alt a b, c => .alt (a.deriv c) (b.deriv c)
  | .star r, c => .cat (r.deriv c) (.star r)

/-- Whole-list matching by iterated derivatives. -/
def RE.matchList : RE → List Char → Bool
  | r, [] => r.nullable
  | r, c :: cs => (r.deriv c).matchList cs

/-- Whole-string matching: the string is in the regex's language. -/
def RE.matchWhole (r : RE) (s : String) : Bool := r.matchList s.data

/-- A regex matching exactly one given character. -/
def RE.chr (c : Char) : RE := .cls (· == c)

/-- One-or-more repetition (`+`). -/
def RE.plus (r : RE) : RE := .cat r (.star r)

/-- Zero-or-one repetition (`?`). -/
def RE.opt (r : RE) : RE := .alt r .eps

/-- `n`-fold repetition (`{n}`). -/
def RE.rep : RE → Nat → RE
  | _, 0 => .eps
  | r, n + 1 => .cat r (RE.rep r n)

/-- Repetition range `{lo,hi}`: `lo` mandatory copies followed by
`hi - lo` optional ones. -/
def RE.repRange (r : RE) (lo hi : Nat) : RE :=
  .cat (RE.rep r lo) (RE.rep (RE.opt r) (hi - lo))

/-- The class of a JavaScript `.` without the `s` flag: any character
except a line terminator. -/
def jsDotClass (c : Char) : Bool :=
  !(c == Char.ofNat 10 || c == Char.ofNat 13 || c == Char.ofNat 0x2028 ||
    c == Char.ofNat 0x2029)

/-- A compiled caller pattern: leading `^` anchor present, body regex,
trailing `$` anchor present. -/
structure JsPattern where
  anchoredStart : Bool
  body : RE
  anchoredEnd : Bool

/-- Characters that act as quantifiers in the modelled fragment. -/
def isQuantChar (c : Char) : Bool := c == '*' || c == '+' || c == '?'

/-- Characters the modelled pattern fragment does not give a meaning to
as plain atoms. -/
def isFragSpecial (c : Char) : Bool :=
  c == '(' || c == ')' || c == '[' || c == ']' ||
  c == Char.ofNat 123 || c == Char.ofNat 125 ||
  c == Char.ofNat 92 || c == '|' || c == '^' || c == '$'

/-- Parses the anchor-stripped body of a caller pattern: a sequence of
atoms (a literal character or `.`), each optionally followed by one
quantifier `*`, `+` or `?`.  Returns `none` on a dangling quantifier or
on any of the characters `( ) [ ] | ^ $`, braces or backslash. -/
def parsePatternItems : List Char → Option RE
  | [] => some .eps
  | [c] =>
    if isQuantChar c || isFragSpecial c then none
    else some (if c == '.' then RE.cls jsDotClass else RE.chr c)
  | c :: q :: rest' =>
    if isQuantChar c || isFragSpecial c then none
    else
      let atom := if c == '.' then RE.cls jsDotClass else RE.chr c
      if q == '*' then (parsePatternItems rest').map (RE.cat (.star atom))
      else if q == '+' then (parsePatternItems rest').map (RE.cat (RE.plus atom))
      else if q == '?' then (parsePatternItems rest').map (RE.cat (RE.opt atom))
      else (parsePatternItems (q :: rest')).map (RE.cat atom)

/-- Models `new RegExp(pattern)` on a fragment of JavaScript regex
syntax: an optional leading `^`, a body of literal characters and `.`
atoms with optional `*` `+` `?` quantifiers, and an optional trailing
`$`.  `none` models a thrown `SyntaxError`.  Within the fragment's
alphabet this agrees with JavaScript (a dangling quantifier or an
unmatched `( ) [` is a `SyntaxError` there too); richer constructs
(groups, classes, escapes, alternation, braces, mid-pattern anchors,
lazy quantifiers) are outside the modelled fragment. -/
def compilePattern (pat : String) : Option JsPattern :=
  let cs := pat.data
  let (anchS, cs) := match cs with
    | '^' :: rest => (true, rest)
    | other => (false, other)
  let (anchE, cs) := match cs.reverse with
    | '$' :: restRev => (true, restRev.reverse)
    | _ => (false, cs)
  (parsePatternItems cs).map (fun body => ⟨anchS, body, anchE⟩)

/-- Models `regExp.test(data)`: JavaScript searches for a match
*anywhere* in the input, so an unanchored side may be preceded /
followed by arbitrary characters. -/
def jsRegexTest (p : JsPattern) (s : String) : Bool :=
  let anyc : RE := .cls (fun _ => true)
  let pre : RE := if p.anchoredStart then .eps else .star anyc
  let post : RE := if p.anchoredEnd then .eps else .star anyc
  (RE.cat pre (RE.cat p.body post)).matchWhole s

/-- `RegExp.prototype.toString` as used in the pattern-failure message:
`/` + source + `/`.  (JavaScript additionally escapes `/` inside the
source; no claim inspects such a pattern.) -/
def regExpToString (pat : String) : String := "/" ++ pat ++ "/"

/-!
## Format checkers (`string-format.ts`)

Each regex literal of the source is transcribed as an `RE` term; the
predicates then test whole-string membership (all the source regexes
are `^...$`-anchored).
-/

/-- Concatenation of a list of regexes, in order. -/
def reSeq : List RE → RE
  | [] => .eps
  | [r] => r
  | r :: rs => .cat r (reSeq rs)

/-- `c` lies between `lo` and `hi` inclusive (a regex character range). -/
def charBetween (lo hi c : Char) : Bool := lo ≤ c && c ≤ hi

/-- The class `[0-9a-f]` under the `i` flag. -/
def hexDigitI (c : Char) : Bool :=
  charBetween '0' '9' c || charBetween 'a' 'f' c || charBetween 'A' 'F' c

/-- The class `[A-Fa-f0-9]`. -/
def hexClass : RE := .cls hexDigitI

/-- The class `\d`. -/
def digitClass : RE := .cls (charBetween '0' '9')

/-- JavaScript `\s` (whitespace class), covering the code points the
format predicates can meet. -/
def jsWhitespace (c : Char) : Bool :=
  c == ' ' || charBetween (Char.ofNat 9) (Char.ofNat 13) c ||
  c == Char.ofNat 0xa0 || c == Char.ofNat 0x1680 ||
  charBetween (Char.ofNat 0x2000) (Char.ofNat 0x200a) c ||
  c == Char.ofNat 0x2028 || c == Char.ofNat 0x2029 ||
  c == Char.ofNat 0x202f || c == Char.ofNat 0x205f ||
  c == Char.ofNat 0x3000 || c == Char.ofNat 0xfeff

/-- `/^[0-9a-f]{8}-[0-9a-f]{4}-[1-5][0-9a-f]{3}-[89ab][0-9a-f]{3}-[0-9a-f]{12}$/i` -/
def uuidRE : RE :=
  reSeq [RE.rep hexClass 8, RE.chr '-', RE.rep hexClass 4, RE.chr '-',
         .cls (charBetween '1' '5'), RE.rep hexClass 3, RE.chr '-',
         .cls (fun c => c == '8' || c == '9' || c == 'a' || c == 'b' ||
                        c == 'A' || c == 'B'),
         RE.rep hexClass 3, RE.chr '-', RE.rep hexClass 12]

/-- `isUuid` from `string-format.ts`. -/
def isUuid (value : String) : Bool := uuidRE.matchWhole value

/-- `/^[^\s@]+@[^\s@]+\.[^\s@]+$/` -/
def emailRE : RE :=
  let x : RE := .cls (fun c => !(jsWhitespace c || c == '@'))
  reSeq [RE.plus x, RE.chr '@', RE.plus x, RE.chr '.', RE.plus x]

/-- `isEmail` from `string-format.ts`. -/
def isEmail (value : String) : Bool := emailRE.matchWhole value

/-- One hostname label must match `/^(?!-)[A-Za-z0-9-]{1,63}(?<!-)$/`:
1–63 alphanumeric-or-hyphen characters, neither starting nor ending
with a hyphen. -/
def hostnameLabelOk (label : String) : Bool :=
  let cs := label.data
  decide (1 ≤ cs.length) && decide (cs.length ≤ 63) &&
  cs.all (fun c => charBetween 'A' 'Z' c || charBetween 'a' 'z' c ||
                   charBetween '0' '9' c || c == '-') &&
  (match cs with
   | [] => true
   | c :: _ => !(c == '-')) &&
  (match cs.reverse with
   | [] => true
   | c :: _ => !(c == '-'))

/-- `isHostname` from `string-format.ts`: length at most 253 and every
dot-separated label valid.  `String.splitOn "."` agrees with the
JavaScript `value.split('.')` used there. -/
def isHostname (value : String) : Bool :=
  if value.length > 253 then false
  else (value.splitOn ".").all hostnameLabelOk

/-- `(25[0-5]|2[0-4]\d|1?\d{1,2})`, one IPv4 octet. -/
def ipv4OctetRE : RE :=
  .alt (reSeq [RE.chr '2', RE.chr '5', .cls (charBetween '0' '5')])
    (.alt (reSeq [RE.chr '2', .cls (charBetween '0' '4'), digitClass])
      (reSeq [RE.opt (RE.chr '1'), digitClass, RE.opt digitClass]))

/-- The anchored IPv4 regex of `string-format.ts`. -/
def ipv4RE : RE :=
  reSeq [ipv4OctetRE, RE.chr '.', ipv4OctetRE, RE.chr '.', ipv4OctetRE,
         RE.chr '.', ipv4OctetRE]

/-- `isIpv4` from `string-format.ts`. -/
def isIpv4 (value : String) : Bool := ipv4RE.matchWhole value

/-- `[A-Fa-f0-9]{1,4}`, one IPv6 group. -/
def ipv6GroupRE : RE := RE.repRange hexClass 1 4

/-- The nine alternatives of the source's IPv6 regex, in order, plus
the optional trailing `(?:%.+)?` zone id. -/
def ipv6RE : RE :=
  let h := ipv6GroupRE
  let hc := RE.cat h (RE.chr ':')
  let ch := RE.cat (RE.chr ':') h
  let core :=
    .alt (RE.cat (RE.rep hc 7) h)
    (.alt (RE.cat (RE.repRange hc 1 7) (RE.chr ':'))
    (.alt (RE.cat (RE.chr ':') (RE.repRange ch 1 7))
    (.alt (reSeq [RE.repRange hc 1 6, RE.chr ':', h])
    (.alt (RE.cat (RE.repRange hc 1 5) (RE.repRange ch 1 2))
    (.alt (RE.cat (RE.repRange hc 1 4) (RE.repRange ch 1 3))
    (.alt (RE.cat (RE.repRange hc 1 3) (RE.repRange ch 1 4))
    (.alt (RE.cat (RE.repRange hc 1 2) (RE.repRange ch 1 5))
          (reSeq [h, RE.chr ':', RE.repRange ch 1 6]))))))))
  RE.cat core (RE.opt (RE.cat (RE.chr (Char.ofNat 37)) (RE.plus (.cls jsDotClass))))

/-- `isIpv6` from `string-format.ts`. -/
def isIpv6 (value : String) : Bool := ipv6RE.matchWhole value

/-- `(?:\d{4})-(?:0[1-9]|1[0-2])-(?:0[1-9]|[12]\d|3[01])`, the RFC3339
full-date part shared by `isDate` and `isDateTime`. -/
def dateBodyRE : RE :=
  reSeq [RE.rep digitClass 4, RE.chr '-',
         .alt (RE.cat (RE.chr '0') (.cls (charBetween '1' '9')))
              (RE.cat (RE.chr '1') (.cls (charBetween '0' '2'))),
         RE.chr '-',
         .alt (RE.cat (RE.chr '0') (.cls (charBetween '1' '9')))
              (.alt (RE.cat (.cls (charBetween '1' '2')) digitClass)
                    (RE.cat (RE.chr '3') (.cls (charBetween '0' '1'))))]

/-- `(?:[01]\d|2[0-3]):[0-5]\d:[0-5]\d(?:\.\d+)?`, the time-of-day part
with optional fractional seconds. -/
def timeBodyRE : RE :=
  reSeq [.alt (RE.cat (.cls (charBetween '0' '1')) digitClass)
              (RE.cat (RE.chr '2') (.cls (charBetween '0' '3'))),
         RE.chr ':', .cls (charBetween '0' '5'), digitClass,
         RE.chr ':', .cls (charBetween '0' '5'), digitClass,
         RE.opt (RE.cat (RE.chr '.') (RE.plus digitClass))]

/-- `(?:Z|[+-](?:[01]\d|2[0-3]):[0-5]\d)`, a timezone offset. -/
def zoneRE : RE :=
  .alt (RE.chr 'Z')
       (reSeq [.cls (fun c => c == '+' || c == '-'),
               .alt (RE.cat (.cls (charBetween '0' '1')) digitClass)
                    (RE.cat (RE.chr '2') (.cls (charBetween '0' '3'))),
               RE.chr ':', .cls (charBetween '0' '5'), digitClass])

/-- `isDateTime` from `string-format.ts`: date `T` time with a
mandatory zone. -/
def isDateTime (value : String) : Bool :=
  (reSeq [dateBodyRE, RE.chr 'T', timeBodyRE, zoneRE]).matchWhole value

/-- `isDate` from `string-format.ts`. -/
def isDate (value : String) : Bool := dateBodyRE.matchWhole value

/-- `isTime` from `string-format.ts`: time with an optional zone. -/
def isTime (value : String) : Bool :=
  (RE.cat timeBodyRE (RE.opt zoneRE)).matchWhole value

/-- A scheme-initial character per RFC3986 (`ALPHA`). -/
def isSchemeStart (c : Char) : Bool := charBetween 'A' 'Z' c || charBetween 'a' 'z' c

/-- A scheme-continuation character (`ALPHA / DIGIT / + / - / .`). -/
def isSchemeChar (c : Char) : Bool :=
  isSchemeStart c || charBetween '0' '9' c || c == '+' || c == '-' || c == '.'

/-- Splits `cs` at the first `:` provided everything before it is a
well-formed non-empty scheme; returns the scheme (lower-cased) and the
remainder after the colon. -/
def splitScheme : List Char → List Char → Option (List Char × List Char)
  | acc, ':' :: rest => if acc.isEmpty then none else some (acc.reverse.map Char.toLower, rest)
  | acc, c :: rest =>
      if (if acc.isEmpty then isSchemeStart c else isSchemeChar c) then
        splitScheme (c :: acc) rest
      else none
  | _, [] => none

/-- Models `new URL(value)` to the extent `isUri` observes it, returning
`(protocol, hostname)` or `none` for a thrown parse error.  A scheme is
mandatory; for the special schemes `http` / `https` / `ftp` / `ws` /
`wss` any leading slashes after the colon are consumed, the hostname
runs to the next `/ ? # :` delimiter, and an empty hostname is a parse
error; other schemes parse without authority (hostname empty).  This
reproduces WHATWG behaviour on the inputs `isUri` distinguishes;
percent-encoding, userinfo and IDNA normalisation are not modelled. -/
def jsUrlParse (value : String) : Option (String × String) :=
  match splitScheme [] value.data with
  | none => none
  | some (scheme, rest) =>
    let protocol := String.mk scheme ++ ":"
    if protocol == "http:" || protocol == "https:" || protocol == "ftp:" ||
       protocol == "ws:" || protocol == "wss:" then
      let afterSlashes := rest.dropWhile (fun c => c == '/' || c == Char.ofNat 92)
      let host := afterSlashes.takeWhile
        (fun c => !(c == '/' || c == '?' || c == '#' || c == ':'))
      if host.isEmpty then none else some (protocol, String.mk host)
    else some (protocol, "")

/-- `value.charAt(i) === '/'` for the prefix-shape check of `isUri`. -/
def charAtIsSlash (value : String) (i : Nat) : Bool :=
  match (value.data.drop i).head? with
  | some c => c == '/'
  | none => false

/-- `isUri` from `string-format.ts`: parse, require a scheme; for
`http` / `https` / `ftp` additionally require the literal
`scheme + "//"` prefix verbatim, no third slash, and a non-empty
parsed hostname. -/
def isUri (value : String) : Bool :=
  match jsUrlParse value with
  | none => false
  | some (protocol, hostname) =>
    if protocol == "" then false
    else if protocol == "http:" || protocol == "https:" || protocol == "ftp:" then
      let pre := protocol ++ "//"
      if !(value.startsWith pre) || charAtIsSlash value pre.length then false
      else decide (hostname.length > 0)
    else true

/-- `isFormatValid` from `string-format.ts`: dispatch on the format
name; each known predicate's result is compared with `expected`; an
unrecognized name returns `true` unconditionally. -/
def isFormatValid (format : String) (data : String) (expected : Bool := true) : Bool :=
  if format == "uuid" then isUuid data == expected
  else if format == "email" then isEmail data == expected
  else if format == "uri" then isUri data == expected
  else if format == "hostname" then isHostname data == expected
  else if format == "ipv4" then isIpv4 data == expected
  else if format == "ipv6" then isIpv6 data == expected
  else if format == "date-time" then isDateTime data == expected
  else if format == "date" then isDate data == expected
  else if format == "time" then isTime data == expected
  else true

/-!
## Schema nodes (`types.ts`)
-/

/-- `type: JsonSchemaType | readonly JsonSchemaType[]`: a single kind
name or an explicit array of kind names.  The distinction is
observable: `validateNumberNode` compares `schema.type === 'integer'`
(true only for the single form) and interpolates `schema.type` into a
message (an array renders comma-joined). -/
inductive SchemaType where
  | one (k : JsonKind) : SchemaType
  | list (ks : List JsonKind) : SchemaType
deriving DecidableEq, Repr

/-- The non-recursive facets of a schema node.  `Option.none` models an
absent (`undefined`) field.  `notFormat` models `not?.format`: the
source only ever reads `schema.not?.format`, so a missing `not` object
and a `not` object without `format` coincide.  `enumV` / `constV` name
the `enum` / `const` fields. -/
structure SchemaFacets where
  type : SchemaType
  required : List String
  minItems : Option JsNum
  maxItems : Option JsNum
  minLength : Option JsNum
  maxLength : Option JsNum
  pattern : Option String
  format : Option String
  notFormat : Option String
  minimum : Option JsNum
  maximum : Option JsNum
  exclusiveMinimum : Option JsNum
  exclusiveMaximum : Option JsNum
  enumV : Option (List Prim)
  constV : Option Prim

/-- A schema node (`JsonSchema` in `types.ts`): facets plus the three
recursive positions.  `properties` is the declared name→schema record
in declaration order; `required` defaults to `[]` exactly as
`schema.required ?? []` does (and `properties` likewise: an absent and
an empty record are indistinguishable to every read the source
performs). -/
inductive JsonSchema where
  | mk (facets : SchemaFacets)
       (properties : List (String × JsonSchema))
       (additionalProperties : Option (Bool ⊕ JsonSchema))
       (items : Option JsonSchema) : JsonSchema

/-- The facet record of a schema node. -/
def JsonSchema.facets : JsonSchema → SchemaFacets
  | .mk f _ _ _ => f

/-- The declared properties of a schema node. -/
def JsonSchema.properties : JsonSchema → List (String × JsonSchema)
  | .mk _ p _ _ => p

/-- The `additionalProperties` facet: absent, a boolean, or a schema. -/
def JsonSchema.additionalProperties : JsonSchema → Option (Bool ⊕ JsonSchema)
  | .mk _ _ a _ => a

/-- The `items` facet. -/
def JsonSchema.items : JsonSchema → Option JsonSchema
  | .mk _ _ _ i => i

/-- `schema.type`. -/
def JsonSchema.type (s : JsonSchema) : SchemaType := s.facets.type

/-- `schema.required ?? []`. -/
def JsonSchema.required (s : JsonSchema) : List String := s.facets.required

/-- Replaces the `type` facet, leaving every other field unchanged. -/
def setType (s : JsonSchema) (t : SchemaType) : JsonSchema :=
  match s with
  | .mk f p a i => .mk { f with type := t } p a i

/-- `Array.isArray(schema.type) ? schema.type : [schema.type]`. -/
def toKindList : SchemaType → List JsonKind
  | .one k => [k]
  | .list ks => ks

/-- `Array.prototype.join`: elements joined by a separator (an empty
list joins to the empty string). -/
def joinSep (sep : String) : List String → String
  | [] => ""
  | [x] => x
  | x :: rest => x ++ sep ++ joinSep sep rest

/-- Template-literal rendering of `schema.type`: a single kind renders
as its name, an array joins with `,`. -/
def renderType : SchemaType → String
  | .one k => kindName k
  | .list ks => joinSep "," (ks.map kindName)

/-- Duplicate removal keeping first occurrences, with an accumulator of
already-seen elements: the insertion-order semantics of `new Set`. -/
def setDedupGo : List JsonKind → List JsonKind → List JsonKind
  | _, [] => []
  | seen, k :: rest =>
    if k ∈ seen then setDedupGo seen rest else k :: setDedupGo (k :: seen) rest

/-- `Array.from(new Set(list))`: the list with duplicates removed,
first occurrences kept. -/
def setDedup (l : List JsonKind) : List JsonKind := setDedupGo [] l

/-!
## The validation engine (`validator.ts`)
-/

/-- The kind-membership test of `validateNode` (lines 14–18): the
resolved kind must be in the permitted set, except that a finite
integral number also satisfies a permitted `integer` kind. -/
def kindMembershipOk (t : SchemaType) (d : Json) : Bool :=
  let ks := toKindList t
  let dk := getDataKind d
  ks.contains dk || (dk == JsonKind.number && ks.contains .integer && jsIsInteger d)

/-- The message of a kind-membership failure: the permitted kinds,
deduplicated in insertion order and joined by `" or "`, then the
resolved kind. -/
def kindMismatchMessage (t : SchemaType) (d : Json) : String :=
  "Expected " ++ joinSep " or " ((setDedup (toKindList t)).map kindName) ++
    " but got " ++ kindName (getDataKind d)

/-- `isConstMismatch`: present `const` and data not strictly equal. -/
def isConstMismatch (s : JsonSchema) (d : Json) : Bool :=
  match s.facets.constV with
  | none => false
  | some c => !(jsStrictEq d c)

/-- Rendering of the expected `const` in its failure message: string
literals are quoted, everything else stringifies as in a template
literal. -/
def renderConst : Option Prim → String
  | some (.str v) => sq ++ v ++ sq
  | some (.num x) => jsNumToString x
  | some (.bool b) => if b then "true" else "false"
  | some .null => "null"
  | none => "undefined"

/-- `PRIMITIVE_TYPES` from `validator.ts`, as `typeof` results. -/
def PRIMITIVE_TYPES : List JsonKind := [.string, .number, .boolean]

/-- `Json.null` recognizer (`data !== null`). -/
def Json.isNull : Json → Bool
  | .null => true
  | _ => false

/-- `isEnumMismatch` from `validator.ts`: with a present `enum`, any
non-null value whose `typeof` is not string/number/boolean mismatches;
otherwise mismatch is non-membership per `Array.prototype.includes`,
i.e. SameValueZero comparison. -/
def isEnumMismatch (s : JsonSchema) (d : Json) : Bool :=
  match s.facets.enumV with
  | none => false
  | some es =>
    if !(d.isNull) && !(PRIMITIVE_TYPES.contains (jsTypeof d)) then true
    else !(es.any (fun e => sameValueZero d e))

/-- `Object.hasOwn(data, key)` on the modelled own-property list. -/
def hasOwn (fields : List (String × Json)) (key : String) : Bool :=
  fields.any (fun kv => kv.1 == key)

/-- `data[key]` guarded by `Object.hasOwn`: the own property value. -/
def jsLookup (fields : List (String × Json)) (key : String) : Option Json :=
  (fields.find? (fun kv => kv.1 == key)).map (fun kv => kv.2)

/-- The own property names of `Object.prototype`, which a plain object
literal inherits.  The source tests `key in properties`, and the `in`
operator sees inherited properties, so these names always pass that
test whatever `properties` declares. -/
def OBJECT_PROTOTYPE_KEYS : List String :=
  ["constructor", "hasOwnProperty", "isPrototypeOf", "propertyIsEnumerable",
   "toLocaleString", "toString", "valueOf", "__defineGetter__",
   "__defineSetter__", "__lookupGetter__", "__lookupSetter__", "__proto__"]

/-- `key in properties` for a plain-object-literal `properties`: an own
declared name, or a property inherited from `Object.prototype`. -/
def jsInProps (props : List (String × JsonSchema)) (key : String) : Bool :=
  props.any (fun kv => kv.1 == key) || OBJECT_PROTOTYPE_KEYS.contains key

/-- The `required` loop of `validateObjectNode` (lines 46–50): the first
name the data lacks as an own property yields a failure with no
`received`. -/
def validateRequired (req : List String) (path : ErrorPath)
    (fields : List (String × Json)) : Option ValidationError :=
  match req with
  | [] => none
  | key :: rest =>
    if !(hasOwn fields key) then
      some ⟨path, "Missing required property " ++ sq ++ key ++ sq, none⟩
    else validateRequired rest path fields

/-- The closed-object scan (lines 64–69): the first data key, in data
key order, failing the `key in properties` test. -/
def findUnexpected (props : List (String × JsonSchema))
    (fields : List (String × Json)) : Option String :=
  (fields.map (fun kv => kv.1)).find? (fun key => !(jsInProps props key))

/-- The `not.format` check of `validateStringNode` (lines 114–116),
guarded by JavaScript truthiness (an empty format name is skipped). -/
def notFormatCheck (s : JsonSchema) (path : ErrorPath) (v : String) : ValidationResult :=
  match s.facets.notFormat with
  | some f =>
    if !(f == "") && !(isFormatValid f v false) then
      fail ("Must not be " ++ f ++ " format") path (some (.str v))
    else .ok
  | none => .ok

/-- The `format` then `not.format` checks of `validateStringNode`
(lines 111–116). -/
def stringFormatChecks (s : JsonSchema) (path : ErrorPath) (v : String) : ValidationResult :=
  match s.facets.format with
  | some f =>
    if !(f == "") && !(isFormatValid f v) then
      fail ("Invalid " ++ f ++ " format") path (some (.str v))
    else notFormatCheck s path v
  | none => notFormatCheck s path v

/-- The `maxLength` check (lines 102–104). -/
def stringMaxLengthError (s : JsonSchema) (path : ErrorPath) (v : String) :
    Option ValidationError :=
  match s.facets.maxLength with
  | some m =>
    if jsGt (.fin (v.length : ℚ)) m then
      some ⟨path, "String length > " ++ jsNumToString m, some (.num (.fin (v.length : ℚ)))⟩
    else none
  | none => none

/-- The `minLength` then `maxLength` checks (lines 99–104). -/
def stringLengthError (s : JsonSchema) (path : ErrorPath) (v : String) :
    Option ValidationError :=
  match s.facets.minLength with
  | some m =>
    if jsLt (.fin (v.length : ℚ)) m then
      some ⟨path, "String length < " ++ jsNumToString m, some (.num (.fin (v.length : ℚ)))⟩
    else stringMaxLengthError s path v
  | none => stringMaxLengthError s path v

/-- `validateStringNode` (lines 95–119).  `new RegExp(schema.pattern)`
throwing a `SyntaxError` on a malformed pattern is modelled by
`Except.error` carrying the pattern; an empty pattern string is falsy
and skipped. -/
def validateStringNode (s : JsonSchema) (path : ErrorPath) (d : Json) : VRes :=
  match d with
  | .str v =>
    match stringLengthError s path v with
    | some e => .ok (.err e)
    | none =>
      match s.facets.pattern with
      | some pat =>
        if !(pat == "") then
          match compilePattern pat with
          | none => .error pat
          | some re =>
            if !(jsRegexTest re v) then
              .ok (fail ("String does not match pattern " ++ regExpToString pat) path (some d))
            else .ok (stringFormatChecks s path v)
        else .ok (stringFormatChecks s path v)
      | none => .ok (stringFormatChecks s path v)
  | _ => .ok (fail "Expected string" path (some d))

/-- The `exclusiveMaximum` check (lines 137–139): fails unless the data
is strictly below the bound. -/
def numberExMaxError (s : JsonSchema) (path : ErrorPath) (x : JsNum) :
    Option ValidationError :=
  match s.facets.exclusiveMaximum with
  | some m =>
    if !(jsLt x m) then some ⟨path, "Must be < " ++ jsNumToString m, some (.num x)⟩
    else none
  | none => none

/-- The `exclusiveMinimum` check (lines 134–136), then `exclusiveMaximum`. -/
def numberExMinError (s : JsonSchema) (path : ErrorPath) (x : JsNum) :
    Option ValidationError :=
  match s.facets.exclusiveMinimum with
  | some m =>
    if !(jsGt x m) then some ⟨path, "Must be > " ++ jsNumToString m, some (.num x)⟩
    else numberExMaxError s path x
  | none => numberExMaxError s path x

/-- The `maximum` check (lines 131–133), then the exclusive bounds. -/
def numberMaxError (s : JsonSchema) (path : ErrorPath) (x : JsNum) :
    Option ValidationError :=
  match s.facets.maximum with
  | some m =>
    if jsGt x m then some ⟨path, "Must be <= " ++ jsNumToString m, some (.num x)⟩
    else numberExMinError s path x
  | none => numberExMinError s path x

/-- The numeric bound checks of `validateNumberNode` (lines 128–139) in
source order: `minimum`, `maximum`, `exclusiveMinimum`,
`exclusiveMaximum`, first failure wins. -/
def numberBoundsError (s : JsonSchema) (path : ErrorPath) (x : JsNum) :
    Option ValidationError :=
  match s.facets.minimum with
  | some m =>
    if jsLt x m then some ⟨path, "Must be >= " ++ jsNumToString m, some (.num x)⟩
    else numberMaxError s path x
  | none => numberMaxError s path x

/-- `validateNumberNode` (lines 121–142): non-numbers and non-finite
numbers fail with the rendered `schema.type`; the integrality check
fires only when `schema.type === 'integer'` (the single form, not an
array containing `integer`); then the four bounds. -/
def validateNumberNode (s : JsonSchema) (path : ErrorPath) (d : Json) : VRes :=
  match d with
  | .num x =>
    if !(x.finite) then .ok (fail ("Expected " ++ renderType s.type) path (some d))
    else if s.type == SchemaType.one .integer && !(jsIsInteger d) then
      .ok (fail "Expected integer" path (some d))
    else
      match numberBoundsError s path x with
      | some e => .ok (.err e)
      | none => .ok .ok
  | _ => .ok (fail ("Expected " ++ renderType s.type) path (some d))

/-- `validateBooleanNode` (lines 144–150). -/
def validateBooleanNode (_s : JsonSchema) (path : ErrorPath) (d : Json) : VRes :=
  match d with
  | .bool _ => .ok .ok
  | _ => .ok (fail "Expected boolean" path (some d))

/-- The `minItems` / `maxItems` checks of `validateArrayNode`
(lines 79–84); the failure's `received` is the actual length. -/
def arrayMaxItemsError (s : JsonSchema) (path : ErrorPath) (len : Nat) :
    Option ValidationError :=
  match s.facets.maxItems with
  | some m =>
    if jsGt (.fin (len : ℚ)) m then
      some ⟨path, "Expected at most " ++ jsNumToString m ++ " items, got " ++ toString len,
            some (.num (.fin (len : ℚ)))⟩
    else none
  | none => none

/-- `minItems` first, then `maxItems`. -/
def arrayBoundsError (s : JsonSchema) (path : ErrorPath) (len : Nat) :
    Option ValidationError :=
  match s.facets.minItems with
  | some m =>
    if jsLt (.fin (len : ℚ)) m then
      some ⟨path, "Expected at least " ++ jsNumToString m ++ " items, got " ++ toString len,
            some (.num (.fin (len : ℚ)))⟩
    else arrayMaxItemsError s path len
  | none => arrayMaxItemsError s path len

/-- Size bound used by the termination argument: an own-property value
found by `jsLookup` is structurally smaller than the field list. -/
theorem jsLookup_sizeOf {fields : List (String × Json)} {key : String} {v : Json}
    (h : jsLookup fields key = some v) : sizeOf v < sizeOf fields := by
  unfold jsLookup at h
  cases hf : List.find? (fun kv => kv.1 == key) fields with
  | none => rw [hf] at h; simp at h
  | some kv =>
    rw [hf] at h
    have hmem := List.mem_of_find?_eq_some hf
    have hlt := List.sizeOf_lt_of_mem hmem
    cases kv with
    | mk k' v' =>
      simp only [Option.map, Option.bind] at h
      injection h with h
      subst h
      simp only [Prod.mk.sizeOf_spec] at hlt
      omega

mutual

/-- `validateNode` (lines 10–37): kind membership, `const`, `enum`,
then dispatch on the resolved data kind; `null` (and any kind with no
dedicated validator) succeeds. -/
def validateNode (s : JsonSchema) (path : ErrorPath) (d : Json) : VRes :=
  if !(kindMembershipOk s.type d) then
    .ok (fail (kindMismatchMessage s.type d) path (some d))
  else if isConstMismatch s d then
    .ok (fail ("Value must equal " ++ renderConst s.facets.constV) path (some d))
  else if isEnumMismatch s d then
    .ok (fail "Value not in enum" path (some d))
  else
    match getDataKind d with
    | .object => validateObjectNode s path d
    | .array => validateArrayNode s path d
    | .string => validateStringNode s path d
    | .number => validateNumberNode s path d
    | .boolean => validateBooleanNode s path d
    | _ => .ok .ok
termination_by (sizeOf d, 2, 0)
decreasing_by all_goals (apply Prod.Lex.right; apply Prod.Lex.left; omega)

/-- `validateObjectNode` (lines 39–73): structural object check,
`required` in declared order, declared properties in declaration order,
then `additionalProperties` (a schema validates undeclared keys in data
key order; `false` rejects the first undeclared key; absent or `true`
skips). -/
def validateObjectNode (s : JsonSchema) (path : ErrorPath) (d : Json) : VRes :=
  match d with
  | .obj fields =>
    match validateRequired s.required path fields with
    | some e => .ok (.err e)
    | none =>
      match validateProps s.properties path fields with
      | .error w => .error w
      | .ok (.err e) => .ok (.err e)
      | .ok .ok =>
        match s.additionalProperties with
        | some (.inr apSchema) => validateExtras apSchema s.properties path fields
        | some (.inl false) =>
          match findUnexpected s.properties fields with
          | some key => .ok (fail ("Unexpected property " ++ sq ++ key ++ sq) path)
          | none => .ok .ok
        | _ => .ok .ok
  | _ => .ok (fail "Expected object" path (some d))
termination_by (sizeOf d, 1, 0)
decreasing_by all_goals (simp_wf; apply Prod.Lex.left; omega)

/-- The declared-properties loop (lines 51–56): each declared property
present in the data is validated at `path + key`; the first nested
failure (or thrown error) propagates. -/
def validateProps (props : List (String × JsonSchema)) (path : ErrorPath)
    (fields : List (String × Json)) : VRes :=
  match props with
  | [] => .ok .ok
  | (key, node) :: rest =>
    match h : jsLookup fields key with
    | none => validateProps rest path fields
    | some v =>
      match validateNode node (path ++ [.key key]) v with
      | .error w => .error w
      | .ok (.err e) => .ok (.err e)
      | .ok .ok => validateProps rest path fields
termination_by (sizeOf fields, 0, props.length)
decreasing_by
  all_goals simp_wf
  all_goals first
    | (apply Prod.Lex.right; apply Prod.Lex.right; omega)
    | (apply Prod.Lex.left; exact jsLookup_sizeOf h)

/-- The `additionalProperties`-as-schema loop (lines 57–63): every data
key failing the `key in properties` test is validated against the
nested schema at `path + key`, in data key order. -/
def validateExtras (apSchema : JsonSchema) (props : List (String × JsonSchema))
    (path : ErrorPath) (remaining : List (String × Json)) : VRes :=
  match remaining with
  | [] => .ok .ok
  | (key, value) :: rest =>
    if jsInProps props key then validateExtras apSchema props path rest
    else
      match validateNode apSchema (path ++ [.key key]) value with
      | .error w => .error w
      | .ok (.err e) => .ok (.err e)
      | .ok .ok => validateExtras apSchema props path rest
termination_by (sizeOf remaining, 0, 0)
decreasing_by all_goals (simp_wf; apply Prod.Lex.left; omega)

/-- `validateArrayNode` (lines 75–93): structural array check, the two
size bounds, then per-element validation in ascending index order when
`items` is present. -/
def validateArrayNode (s : JsonSchema) (path : ErrorPath) (d : Json) : VRes :=
  match d with
  | .arr elems =>
    match arrayBoundsError s path elems.length with
    | some e => .ok (.err e)
    | none =>
      match s.items with
      | some itemSchema => validateItems itemSchema path elems 0
      | none => .ok .ok
  | _ => .ok (fail "Expected array" path (some d))
termination_by (sizeOf d, 1, 0)
decreasing_by all_goals (simp_wf; apply Prod.Lex.left; omega)

/-- The `items` loop (lines 85–90): element `i` is validated at
`path + i`. -/
def validateItems (itemSchema : JsonSchema) (path : ErrorPath)
    (elems : List Json) (i : Nat) : VRes :=
  match elems with
  | [] => .ok .ok
  | v :: rest =>
    match validateNode itemSchema (path ++ [.idx i]) v with
    | .error w => .error w
    | .ok (.err e) => .ok (.err e)
    | .ok .ok => validateItems itemSchema path rest (i + 1)
termination_by (sizeOf elems, 0, 0)
decreasing_by all_goals (simp_wf; apply Prod.Lex.left; omega)

end

/-- `validator` (lines 6–8): compiles a schema to a validator; each
invocation validates at the root path. -/
def validator (s : JsonSchema) (d : Json) : VRes := validateNode s [] d

/-- A facet record with the given `type` and every optional facet
absent: the translation of a schema literal that writes only `type`. -/
def emptyFacets (t : SchemaType) : SchemaFacets :=
  ⟨t, [], none, none, none, none, none, none, none, none, none, none, none, none, none⟩

/-- A schema literal carrying only a `type`. -/
def leafSchema (t : SchemaType) : JsonSchema := .mk (emptyFacets t) [] none none

/-!
## Claim theorems
-/

/-- `{type:'string', pattern:'ab'}`. -/
def patternAbSchema : JsonSchema :=
  .mk { emptyFacets (.one .string) with pattern := some "ab" } [] none none

/-- C1.  The claim (and the repository's own tests, `pattern (anchored)`
in `main.test.ts`) require `pattern` to be matched as a whole-string
anchor, but the source runs `new RegExp(schema.pattern).test(data)`,
which searches for a substring match: on the data `"xxabxx"` the
pattern `"ab"` does not match the entire input (second conjunct), yet
validation succeeds (first conjunct), where the claim and the tests
demand a pattern failure. -/
theorem pattern_substring_match_accepted :
    validator patternAbSchema (.str "xxabxx") = .ok .ok ∧
    (∃ p, compilePattern "ab" = some p ∧
      p.body.matchWhole "xxabxx" = false ∧ jsRegexTest p "xxabxx" = true) := by
  have hc : compilePattern "ab" = some ⟨false, RE.cat (RE.chr 'a') (RE.chr 'b'), false⟩ := rfl
  refine ⟨?_, ⟨_, hc, by decide, by decide⟩⟩
  have hrt : jsRegexTest ⟨false, RE.cat (RE.chr 'a') (RE.chr 'b'), false⟩ "xxabxx" = true := by
    decide
  simp [validator, validateNode, validateStringNode, kindMembershipOk, getDataKind,
        toKindList, isConstMismatch, isEnumMismatch, patternAbSchema, emptyFacets,
        JsonSchema.type, JsonSchema.facets, stringLengthError, stringMaxLengthError,
        stringFormatChecks, notFormatCheck, hc, hrt]

/-- `{type:'number', minimum:1, exclusiveMinimum:5, maximum:10, exclusiveMaximum:9}`. -/
def c2Schema : JsonSchema :=
  .mk { emptyFacets (.one .number) with
        minimum := some (.fin 1), maximum := some (.fin 10),
        exclusiveMinimum := some (.fin 5), exclusiveMaximum := some (.fin 9) }
     [] none none

/-- C2.  The numeric facets are checked in the order `minimum`,
`maximum`, `exclusiveMinimum`, `exclusiveMaximum`, each short-circuiting
(first four conjuncts: a violated `minimum` masks everything after it, a
violated `maximum` masks the exclusive bounds, and so on; fifth
conjunct: a datum inside all four bounds passes).  In particular, on
the claim's schema: `5` satisfies the inclusive bounds but fails the
strict `exclusiveMinimum` with "Must be > 5"; `0` violates both
`minimum` and `exclusiveMinimum` and the earlier `minimum` wins; `20`
violates both `maximum` and `exclusiveMaximum` and `maximum` wins; `9`
fails only the last check; `7` passes. -/
theorem number_facet_order :
    (∀ (s : JsonSchema) (p : ErrorPath) (x m : JsNum),
       s.facets.minimum = some m → jsLt x m = true →
       numberBoundsError s p x =
         some ⟨p, "Must be >= " ++ jsNumToString m, some (.num x)⟩) ∧
    (∀ (s : JsonSchema) (p : ErrorPath) (x m : JsNum),
       (∀ m0, s.facets.minimum = some m0 → jsLt x m0 = false) →
       s.facets.maximum = some m → jsGt x m = true →
       numberBoundsError s p x =
         some ⟨p, "Must be <= " ++ jsNumToString m, some (.num x)⟩) ∧
    (∀ (s : JsonSchema) (p : ErrorPath) (x m : JsNum),
       (∀ m0, s.facets.minimum = some m0 → jsLt x m0 = false) →
       (∀ m0, s.facets.maximum = some m0 → jsGt x m0 = false) →
       s.facets.exclusiveMinimum = some m → jsGt x m = false →
       numberBoundsError s p x =
         some ⟨p, "Must be > " ++ jsNumToString m, some (.num x)⟩) ∧
    (∀ (s : JsonSchema) (p : ErrorPath) (x m : JsNum),
       (∀ m0, s.facets.minimum = some m0 → jsLt x m0 = false) →
       (∀ m0, s.facets.maximum = some m0 → jsGt x m0 = false) →
       (∀ m0, s.facets.exclusiveMinimum = some m0 → jsGt x m0 = true) →
       s.facets.exclusiveMaximum = some m → jsLt x m = false →
       numberBoundsError s p x =
         some ⟨p, "Must be < " ++ jsNumToString m, some (.num x)⟩) ∧
    (∀ (s : JsonSchema) (p : ErrorPath) (x : JsNum),
       (∀ m0, s.facets.minimum = some m0 → jsLt x m0 = false) →
       (∀ m0, s.facets.maximum = some m0 → jsGt x m0 = false) →
       (∀ m0, s.facets.exclusiveMinimum = some m0 → jsGt x m0 = true) →
       (∀ m0, s.facets.exclusiveMaximum = some m0 → jsLt x m0 = true) →
       numberBoundsError s p x = none) ∧
    validator c2Schema (.num (.fin 5)) =
      .ok (.err ⟨[], "Must be > 5", some (.num (.fin 5))⟩) ∧
    validator c2Schema (.num (.fin 0)) =
      .ok (.err ⟨[], "Must be >= 1", some (.num (.fin 0))⟩) ∧
    validator c2Schema (.num (.fin 20)) =
      .ok (.err ⟨[], "Must be <= 10", some (.num (.fin 20))⟩) ∧
    validator c2Schema (.num (.fin 9)) =
      .ok (.err ⟨[], "Must be < 9", some (.num (.fin 9))⟩) ∧
    validator c2Schema (.num (.fin 7)) = .ok .ok := by
  have hmin : ∀ (s : JsonSchema) (p : ErrorPath) (x : JsNum),
      (∀ m0, s.facets.minimum = some m0 → jsLt x m0 = false) →
      numberBoundsError s p x = numberMaxError s p x := by
    intro s p x h
    unfold numberBoundsError
    cases hm : s.facets.minimum with
    | none => rfl
    | some m0 => simp [h m0 hm]
  have hmax : ∀ (s : JsonSchema) (p : ErrorPath) (x : JsNum),
      (∀ m0, s.facets.maximum = some m0 → jsGt x m0 = false) →
      numberMaxError s p x = numberExMinError s p x := by
    intro s p x h
    unfold numberMaxError
    cases hm : s.facets.maximum with
    | none => rfl
    | some m0 => simp [h m0 hm]
  have hexmin : ∀ (s : JsonSchema) (p : ErrorPath) (x : JsNum),
      (∀ m0, s.facets.exclusiveMinimum = some m0 → jsGt x m0 = true) →
      numberExMinError s p x = numberExMaxError s p x := by
    intro s p x h
    unfold numberExMinError
    cases hm : s.facets.exclusiveMinimum with
    | none => rfl
    | some m0 => simp [h m0 hm]
  refine ⟨?_, ?_, ?_, ?_, ?_, ?_, ?_, ?_, ?_, ?_⟩
  · intro s p x m hm hlt
    unfold numberBoundsError
    simp [hm, hlt]
  · intro s p x m h1 hm hgt
    rw [hmin s p x h1]
    unfold numberMaxError
    simp [hm, hgt]
  · intro s p x m h1 h2 hm hgt
    rw [hmin s p x h1, hmax s p x h2]
    unfold numberExMinError
    simp [hm, hgt]
  · intro s p x m h1 h2 h3 hm hlt
    rw [hmin s p x h1, hmax s p x h2, hexmin s p x h3]
    unfold numberExMaxError
    simp [hm, hlt]
  · intro s p x h1 h2 h3 h4
    rw [hmin s p x h1, hmax s p x h2, hexmin s p x h3]
    unfold numberExMaxError
    cases hm : s.facets.exclusiveMaximum with
    | none => rfl
    | some m0 => simp [h4 m0 hm]
  all_goals
    simp [validator, validateNode, validateNumberNode, kindMembershipOk, getDataKind,
          toKindList, isConstMismatch, isEnumMismatch, c2Schema, emptyFacets,
          JsonSchema.type, JsonSchema.facets, numberBoundsError, numberMaxError,
          numberExMinError, numberExMaxError, jsLt, jsGt, JsNum.finite, jsIsInteger,
          jsNumToString, fail]
  all_goals try norm_num
  all_goals decide

/-- Closed instantiation of `number_facet_order`: on the claim's schema
the `minimum` check masks the exclusive bound on `0`, and the
`exclusiveMinimum` check fires on `5` after the inclusive bounds pass. -/
theorem number_facet_order_witness :
    numberBoundsError c2Schema [] (.fin 0) =
      some ⟨[], "Must be >= " ++ jsNumToString (.fin 1), some (.num (.fin 0))⟩ ∧
    numberBoundsError c2Schema [] (.fin 5) =
      some ⟨[], "Must be > " ++ jsNumToString (.fin 5), some (.num (.fin 5))⟩ :=
  ⟨number_facet_order.1 c2Schema [] (.fin 0) (.fin 1) rfl (by decide),
   number_facet_order.2.2.1 c2Schema [] (.fin 5) (.fin 5)
     (fun m0 hm0 => by cases hm0; decide)
     (fun m0 hm0 => by cases hm0; decide)
     rfl (by decide)⟩

/-- C3.  A permitted `integer` kind admits any finite integral number
even though its resolved runtime kind is `number` (first and second
conjuncts), and a finite non-integral number is rejected at the
kind-membership test with the kind-mismatch failure whenever `integer`
is permitted but `number` is not (third conjunct). -/
theorem integer_kind_membership :
    (∀ (t : SchemaType) (q : ℚ), JsonKind.integer ∈ toKindList t → q.den = 1 →
        kindMembershipOk t (.num (.fin q)) = true) ∧
    (∀ (x : JsNum), getDataKind (.num x) = .number ∧ JsonKind.number ≠ JsonKind.integer) ∧
    (∀ (s : JsonSchema) (p : ErrorPath) (q : ℚ),
        JsonKind.integer ∈ toKindList s.type → JsonKind.number ∉ toKindList s.type →
        q.den ≠ 1 →
        validateNode s p (.num (.fin q)) =
          .ok (.err ⟨p, kindMismatchMessage s.type (.num (.fin q)), some (.num (.fin q))⟩)) := by
  refine ⟨?_, ?_, ?_⟩
  · intro t q hmem hden
    have h2 : (toKindList t).contains JsonKind.integer = true := List.elem_iff.mpr hmem
    simp [kindMembershipOk, getDataKind, jsIsInteger, hden, h2]
    exact Or.inr hmem
  · intro x; exact ⟨rfl, by decide⟩
  · intro s p q hint hnum hden
    rw [validateNode]
    have hc : (toKindList s.type).contains JsonKind.number = false := by
      cases hcc : (toKindList s.type).contains JsonKind.number
      · rfl
      · exact absurd (List.elem_iff.mp hcc) hnum
    have hji : jsIsInteger (.num (.fin q)) = false := by
      simp [jsIsInteger, hden]
    have hk : kindMembershipOk s.type (.num (.fin q)) = false := by
      simp [kindMembershipOk, getDataKind, hc, hji]
      exact hnum
    simp [hk, fail]

/-- The rational 3/2, written in reduced form so that kernel reduction
can evaluate it. -/
def threeHalves : ℚ := ⟨3, 2, by decide, by decide⟩

/-- Closed instantiation of `integer_kind_membership`: the kind test
accepts the integral `5` for a permitted-set `[integer]`, and rejects
the non-integral `3/2` with the kind-mismatch failure. -/
theorem integer_kind_membership_witness :
    kindMembershipOk (.list [.integer]) (.num (.fin 5)) = true ∧
    validateNode (leafSchema (.list [.integer])) [] (.num (.fin threeHalves)) =
      .ok (.err ⟨[], kindMismatchMessage (leafSchema (.list [.integer])).type
                       (.num (.fin threeHalves)), some (.num (.fin threeHalves))⟩) :=
  ⟨integer_kind_membership.1 (.list [.integer]) 5 (by decide) (by decide),
   integer_kind_membership.2.2 (leafSchema (.list [.integer])) [] threeHalves
     (by decide) (by decide) (by decide)⟩

/-- The nine format names of the fixed registry. -/
def FORMAT_REGISTRY : List String :=
  ["uuid", "email", "uri", "hostname", "ipv4", "ipv6", "date-time", "date", "time"]

/-- Any format name outside the registry makes `isFormatValid` return
`true` for every value and every `expected` flag. -/
theorem isFormatValid_unknown (name v : String) (expected : Bool)
    (h : name ∉ FORMAT_REGISTRY) : isFormatValid name v expected = true := by
  simp [FORMAT_REGISTRY] at h
  obtain ⟨h1, h2, h3, h4, h5, h6, h7, h8, h9⟩ := h
  simp [isFormatValid, h1, h2, h3, h4, h5, h6, h7, h8, h9]

/-- `{type:'string', format:'totally-made-up'}`. -/
def unknownFormatSchema : JsonSchema :=
  .mk { emptyFacets (.one .string) with format := some "totally-made-up" } [] none none

/-- `{type:'string', not:{format:'also-custom'}}`. -/
def unknownNotFormatSchema : JsonSchema :=
  .mk { emptyFacets (.one .string) with notFormat := some "also-custom" } [] none none

/-- C6.  `isFormatValid` returns `true` on every name outside the fixed
registry, for every value and expected flag; consequently a string
schema with an unknown `format` (or `not.format`) succeeds on every
string. -/
theorem unknown_format_open_world :
    (∀ (name v : String) (expected : Bool),
        name ∉ FORMAT_REGISTRY → isFormatValid name v expected = true) ∧
    (∀ v : String, validator unknownFormatSchema (.str v) = .ok .ok) ∧
    (∀ v : String, validator unknownNotFormatSchema (.str v) = .ok .ok) := by
  refine ⟨fun n v e h => isFormatValid_unknown n v e h, ?_, ?_⟩
  · intro v
    have hf : isFormatValid "totally-made-up" v true = true :=
      isFormatValid_unknown _ v true (by decide)
    simp [validator, validateNode, validateStringNode, kindMembershipOk, getDataKind,
          toKindList, isConstMismatch, isEnumMismatch, unknownFormatSchema, emptyFacets,
          JsonSchema.type, JsonSchema.facets, stringLengthError, stringMaxLengthError,
          stringFormatChecks, notFormatCheck, hf]
  · intro v
    have hf : isFormatValid "also-custom" v false = true :=
      isFormatValid_unknown _ v false (by decide)
    simp [validator, validateNode, validateStringNode, kindMembershipOk, getDataKind,
          toKindList, isConstMismatch, isEnumMismatch, unknownNotFormatSchema, emptyFacets,
          JsonSchema.type, JsonSchema.facets, stringLengthError, stringMaxLengthError,
          stringFormatChecks, notFormatCheck, hf]

/-- Closed instantiation of `unknown_format_open_world` at the name
`totally-made-up` and the value `hello`. -/
theorem unknown_format_open_world_witness :
    isFormatValid "totally-made-up" "hello" false = true ∧
    validator unknownFormatSchema (.str "hello") = .ok .ok :=
  ⟨unknown_format_open_world.1 "totally-made-up" "hello" false (by decide),
   unknown_format_open_world.2.1 "hello"⟩

/-- `{type:'number', enum:[NaN]}`. -/
def nanEnumSchema : JsonSchema :=
  .mk { emptyFacets (.one .number) with enumV := some [.num .nan] } [] none none

/-- C5, counterexample.  With `enum = [NaN]` and the datum `NaN`, the
enum check passes (`isEnumMismatch` is `false`, because
`Array.prototype.includes` compares with SameValueZero, under which
`NaN` matches `NaN`), yet the datum is *strictly equal* to no element
of the enum list (`NaN === NaN` is false) — refuting the claimed
"passes exactly when strictly equal to some element". -/
theorem enum_not_strict_equality :
    nanEnumSchema.facets.enumV = some [.num .nan] ∧
    isEnumMismatch nanEnumSchema (.num .nan) = false ∧
    ([Prim.num .nan].all fun e => !(jsStrictEq (.num .nan) e)) = true := by
  refine ⟨rfl, ?_, by decide⟩
  decide

/-- C5, amended.  With a present `enum`, checked after kind resolution
and `const` and before the kind-specific facets: any non-null datum
whose resolved kind is not string/number/boolean fails the check;
otherwise the check passes exactly when the datum is
SameValueZero-equal to some element (strict equality, except that a
`NaN` datum matches a `NaN` element); an enum mismatch surfaces as the
failure "Value not in enum" carrying the datum. -/
theorem enum_check_semantics (s : JsonSchema) (d : Json) (es : List Prim)
    (h : s.facets.enumV = some es) :
    (d.isNull = false → getDataKind d ∉ [JsonKind.string, .number, .boolean] →
       isEnumMismatch s d = true) ∧
    (d.isNull = true ∨ getDataKind d ∈ [JsonKind.string, .number, .boolean] →
       (isEnumMismatch s d = false ↔ (es.any fun e => sameValueZero d e) = true)) ∧
    (∀ p : ErrorPath, kindMembershipOk s.type d = true → isConstMismatch s d = false →
       isEnumMismatch s d = true →
       validateNode s p d = .ok (.err ⟨p, "Value not in enum", some d⟩)) := by
  refine ⟨?_, ?_, ?_⟩
  · intro hnn hk
    cases d <;> simp_all [isEnumMismatch, h, Json.isNull, jsTypeof, PRIMITIVE_TYPES,
                          getDataKind]
  · intro hprim
    cases d <;> simp_all [isEnumMismatch, h, Json.isNull, jsTypeof, PRIMITIVE_TYPES,
                          getDataKind]
  · intro p hk hc he
    rw [validateNode]
    simp [hk, hc, he, fail]

/-- `{type:'string', enum:['red','green']}`. -/
def redGreenSchema : JsonSchema :=
  .mk { emptyFacets (.one .string) with enumV := some [.str "red", .str "green"] } [] none none

/-- Closed instantiation of `enum_check_semantics`: on the schema
`{type:'string', enum:['red','green']}`, the composite datum `[]` fails
the check, the datum `'green'` passes it, and `'blue'` yields the
"Value not in enum" failure. -/
theorem enum_check_semantics_witness :
    isEnumMismatch redGreenSchema (.arr []) = true ∧
    (isEnumMismatch redGreenSchema (.str "green") = false ↔
      (([Prim.str "red", .str "green"].any
          fun e => sameValueZero (.str "green") e) = true)) ∧
    validateNode redGreenSchema [] (.str "blue") =
      .ok (.err ⟨[], "Value not in enum", some (.str "blue")⟩) :=
  ⟨(enum_check_semantics redGreenSchema (.arr []) [.str "red", .str "green"] rfl).1
      (by decide) (by decide),
   (enum_check_semantics redGreenSchema (.str "green") [.str "red", .str "green"] rfl).2.1
      (by decide),
   (enum_check_semantics redGreenSchema (.str "blue") [.str "red", .str "green"] rfl).2.2
      [] (by decide) (by decide) (by decide)⟩

/-- `{type:'object', additionalProperties:false}` with no declared
properties. -/
def closedEmptySchema : JsonSchema :=
  .mk (emptyFacets (.one .object)) [] (some (.inl false)) none

/-- C4, counterexample.  Under `additionalProperties:false` with *no*
declared properties, the claim requires a failure
"Unexpected property 'toString'" on the data `{toString: 1}` — but the
source tests `key in properties`, the `in` operator sees the
properties object's `Object.prototype` members, and `toString` is one
of them, so validation succeeds. -/
theorem unexpected_property_prototype_leak :
    closedEmptySchema.properties = [] ∧
    closedEmptySchema.additionalProperties = some (.inl false) ∧
    validator closedEmptySchema (.obj [("toString", .num (.fin 1))]) = .ok .ok := by
  refine ⟨rfl, rfl, ?_⟩
  rw [validator, validateNode, validateObjectNode]
  simp [kindMembershipOk, getDataKind, toKindList, isConstMismatch, isEnumMismatch,
        closedEmptySchema, emptyFacets, JsonSchema.type, JsonSchema.facets,
        JsonSchema.required, JsonSchema.properties, JsonSchema.additionalProperties,
        validateRequired, validateProps, findUnexpected, jsInProps,
        OBJECT_PROTOTYPE_KEYS]

/-- C4, amended.  With `additionalProperties:false` and object data
passing the required and declared-property stages, validation fails —
with an "Unexpected property" failure carrying no received value — on
the first data key, in data key order, that fails the `key in
properties` test (i.e. is neither a declared `properties` name nor a
property name inherited from `Object.prototype`); if no data key fails
that test, or if `additionalProperties` is absent or `true`, validation
succeeds. -/
theorem unexpected_property_semantics (s : JsonSchema) (p : ErrorPath)
    (fields : List (String × Json))
    (hreq : validateRequired s.required p fields = none)
    (hprops : validateProps s.properties p fields = .ok .ok) :
    (s.additionalProperties = some (.inl false) →
      validateObjectNode s p (.obj fields) =
        match ((fields.map fun kv => kv.1).find? fun key => !(jsInProps s.properties key)) with
        | some key => .ok (.err ⟨p, "Unexpected property " ++ sq ++ key ++ sq, none⟩)
        | none => .ok .ok) ∧
    (s.additionalProperties = none ∨ s.additionalProperties = some (.inl true) →
      validateObjectNode s p (.obj fields) = .ok .ok) := by
  constructor
  · intro hap
    rw [validateObjectNode]
    simp only [hreq, hprops, hap, findUnexpected, fail]
  · intro hap
    rw [validateObjectNode]
    rcases hap with hap | hap <;> simp only [hreq, hprops, hap]

/-- Closed instantiation of `unexpected_property_semantics`: with a
declared property `a` and closed extras, the data
`{a: 1, zz: true}` fails with "Unexpected property 'zz'" and no
received value; with `additionalProperties` absent the same data
passes. -/
theorem unexpected_property_semantics_witness :
    validateObjectNode
        (.mk (emptyFacets (.one .object)) [("a", leafSchema (.one .number))]
          (some (.inl false)) none) []
        (.obj [("a", .num (.fin 1)), ("zz", .bool true)]) =
      .ok (.err ⟨[], "Unexpected property " ++ sq ++ "zz" ++ sq, none⟩) ∧
    validateObjectNode
        (.mk (emptyFacets (.one .object)) [("a", leafSchema (.one .number))] none none) []
        (.obj [("a", .num (.fin 1)), ("zz", .bool true)]) = .ok .ok := by
  have hn : validateNode (leafSchema (.one .number)) [PathSeg.key "a"] (.num (.fin 1)) =
      .ok .ok := by
    rw [validateNode]
    simp [kindMembershipOk, getDataKind, toKindList, isConstMismatch,
          isEnumMismatch, leafSchema, emptyFacets, JsonSchema.type, JsonSchema.facets,
          validateNumberNode, JsNum.finite, numberBoundsError, numberMaxError,
          numberExMinError, numberExMaxError]
  have hprops : validateProps
      [("a", leafSchema (.one .number))] [] [("a", .num (.fin 1)), ("zz", .bool true)] =
      .ok .ok := by
    simp [validateProps, jsLookup, hn, List.find?, Option.map]
  constructor
  · rw [(unexpected_property_semantics
          (.mk (emptyFacets (.one .object)) [("a", leafSchema (.one .number))]
            (some (.inl false)) none) []
          [("a", .num (.fin 1)), ("zz", .bool true)] rfl hprops).1 rfl]
    rfl
  · exact (unexpected_property_semantics
        (.mk (emptyFacets (.one .object)) [("a", leafSchema (.one .number))] none none) []
        [("a", .num (.fin 1)), ("zz", .bool true)] rfl hprops).2 (Or.inl rfl)

/-- The three coarse outcomes of one invocation: a raised fault, a
success value, or a failure value. -/
inductive VStatus where
  | fault | pass | failed
deriving DecidableEq, Repr

/-- The coarse outcome of a result. -/
def vstatus : VRes → VStatus
  | .error _ => .fault
  | .ok .ok => .pass
  | .ok (.err _) => .failed

/-- `contains` is invariant under permutation of the list. -/
theorem contains_eq_of_perm {l l' : List JsonKind} (h : l.Perm l') (a : JsonKind) :
    l.contains a = l'.contains a := by
  by_cases hm : a ∈ l
  · have h1 : l.contains a = true := List.elem_iff.mpr hm
    have h2 : l'.contains a = true := List.elem_iff.mpr (h.mem_iff.mp hm)
    rw [h1, h2]
  · have h1 : l.contains a = false := by
      cases hcc : l.contains a
      · rfl
      · exact absurd (List.elem_iff.mp hcc) hm
    have h2 : l'.contains a = false := by
      cases hcc : l'.contains a
      · rfl
      · exact absurd (h.mem_iff.mpr (List.elem_iff.mp hcc)) hm
    rw [h1, h2]

/-- `setType` leaves the facet record unchanged apart from `type`. -/
theorem setType_facets (s : JsonSchema) (t : SchemaType) :
    (setType s t).facets = { s.facets with type := t } := by
  cases s; rfl

/-- `setType` installs the new type. -/
theorem setType_type (s : JsonSchema) (t : SchemaType) : (setType s t).type = t := by
  cases s; rfl

/-- `isConstMismatch` ignores the `type` facet. -/
theorem isConstMismatch_setType (s : JsonSchema) (t : SchemaType) (d : Json) :
    isConstMismatch (setType s t) d = isConstMismatch s d := by
  cases s; rfl

/-- `isEnumMismatch` ignores the `type` facet. -/
theorem isEnumMismatch_setType (s : JsonSchema) (t : SchemaType) (d : Json) :
    isEnumMismatch (setType s t) d = isEnumMismatch s d := by
  cases s; rfl

/-- `validateStringNode` ignores the `type` facet. -/
theorem validateStringNode_setType (s : JsonSchema) (t : SchemaType) (p : ErrorPath)
    (d : Json) : validateStringNode (setType s t) p d = validateStringNode s p d := by
  cases s; cases d <;> rfl

/-- `validateBooleanNode` ignores the schema entirely. -/
theorem validateBooleanNode_setType (s : JsonSchema) (t : SchemaType) (p : ErrorPath)
    (d : Json) : validateBooleanNode (setType s t) p d = validateBooleanNode s p d := by
  cases s; cases d <;> rfl

/-- `validateObjectNode` ignores the `type` facet. -/
theorem validateObjectNode_setType (s : JsonSchema) (t : SchemaType) (p : ErrorPath)
    (d : Json) : validateObjectNode (setType s t) p d = validateObjectNode s p d := by
  cases s
  cases d <;>
    simp only [validateObjectNode, setType, JsonSchema.required, JsonSchema.properties,
               JsonSchema.additionalProperties, JsonSchema.facets]

/-- `validateArrayNode` ignores the `type` facet. -/
theorem validateArrayNode_setType (s : JsonSchema) (t : SchemaType) (p : ErrorPath)
    (d : Json) : validateArrayNode (setType s t) p d = validateArrayNode s p d := by
  cases s
  cases d <;>
    simp only [validateArrayNode, setType, JsonSchema.items, JsonSchema.facets,
               arrayBoundsError, arrayMaxItemsError]

/-- A list-shaped `type` is never `===` the single kind `'integer'`. -/
theorem list_beq_one (l : List JsonKind) (k : JsonKind) :
    (SchemaType.list l == SchemaType.one k) = false := rfl

/-- On finite numbers, `validateNumberNode` treats any two list-shaped
`type`s alike: the list form never satisfies `schema.type === 'integer'`
and the bound checks read only the numeric facets. -/
theorem validateNumberNode_list_fin (s : JsonSchema) (l l' : List JsonKind)
    (p : ErrorPath) (q : ℚ) (hs : s.type = .list l) :
    validateNumberNode (setType s (.list l')) p (.num (.fin q)) =
      validateNumberNode s p (.num (.fin q)) := by
  cases s with
  | mk f props ap items =>
    have hf : f.type = .list l := hs
    simp only [validateNumberNode, setType, JsonSchema.type, JsonSchema.facets,
               numberBoundsError, numberMaxError, numberExMinError, numberExMaxError,
               JsNum.finite, hf, list_beq_one, Bool.not_true, Bool.false_and,
               Bool.false_eq_true, if_false]

/-- `kindMembershipOk` is invariant under permutation of a list `type`. -/
theorem kindMembershipOk_perm (l l' : List JsonKind) (d : Json) (h : l.Perm l') :
    kindMembershipOk (.list l') d = kindMembershipOk (.list l) d := by
  simp only [kindMembershipOk, toKindList]
  rw [contains_eq_of_perm h (getDataKind d), contains_eq_of_perm h .integer]

/-- C8.  Reordering a list-shaped `type` never changes which kind
matches (first conjunct: the kind-membership test is invariant), never
changes the coarse outcome (second conjunct), leaves any failure at the
same path with the same received value (third conjunct), and — whenever
the kind test passes and the data is not a non-finite number — leaves
the entire result, and hence the facet check that produced it,
unchanged (fourth conjunct).  Only the wording of the two messages that
interpolate the kind list (the kind-mismatch message and the non-finite
number message) can differ. -/
theorem kind_union_permutation (s : JsonSchema) (l l' : List JsonKind) (p : ErrorPath)
    (d : Json) (hs : s.type = .list l) (hperm : l.Perm l') :
    (kindMembershipOk (setType s (.list l')).type d = kindMembershipOk s.type d) ∧
    (vstatus (validateNode (setType s (.list l')) p d) = vstatus (validateNode s p d)) ∧
    (∀ e e', validateNode s p d = .ok (.err e) →
       validateNode (setType s (.list l')) p d = .ok (.err e') →
       e'.path = e.path ∧ e'.received = e.received) ∧
    (kindMembershipOk s.type d = true → (∀ x : JsNum, d = .num x → x.finite = true) →
       validateNode (setType s (.list l')) p d = validateNode s p d) := by
  have hty : (setType s (.list l')).type = .list l' := setType_type s _
  have hkm : kindMembershipOk (setType s (.list l')).type d = kindMembershipOk s.type d := by
    rw [hty, hs]; exact kindMembershipOk_perm l l' d hperm
  have hcv : (setType s (.list l')).facets.constV = s.facets.constV := by
    cases s; rfl
  have hsplit : validateNode (setType s (.list l')) p d = validateNode s p d ∨
      ((∃ m, validateNode (setType s (.list l')) p d = .ok (.err ⟨p, m, some d⟩)) ∧
       (∃ m, validateNode s p d = .ok (.err ⟨p, m, some d⟩)) ∧
       (kindMembershipOk s.type d = true → ∃ x, d = Json.num x ∧ x.finite = false)) := by
    rw [validateNode, validateNode, hkm, isConstMismatch_setType, isEnumMismatch_setType, hcv]
    rcases Bool.eq_false_or_eq_true (kindMembershipOk s.type d) with hko | hko <;> rw [hko]
    case inr =>
      exact Or.inr ⟨⟨_, rfl⟩, ⟨_, rfl⟩, fun hcon => absurd hcon (by simp)⟩
    case inl =>
      simp only [Bool.not_true, Bool.false_eq_true, if_false]
      rcases Bool.eq_false_or_eq_true (isConstMismatch s d) with hcm | hcm <;> rw [hcm]
      case inl => exact Or.inl rfl
      case inr =>
        simp only [Bool.false_eq_true, if_false]
        rcases Bool.eq_false_or_eq_true (isEnumMismatch s d) with hem | hem <;> rw [hem]
        case inl => exact Or.inl rfl
        case inr =>
          simp only [Bool.false_eq_true, if_false]
          cases d <;> simp only [getDataKind]
          case num x =>
            cases x with
            | fin q => exact Or.inl (validateNumberNode_list_fin s l l' p q hs)
            | nan =>
              exact Or.inr ⟨⟨_, rfl⟩, ⟨_, rfl⟩, fun _ => ⟨.nan, rfl, rfl⟩⟩
            | inf b =>
              exact Or.inr ⟨⟨_, rfl⟩, ⟨_, rfl⟩, fun _ => ⟨.inf b, rfl, rfl⟩⟩
          case null => exact Or.inl trivial
          case bool b => exact Or.inl (validateBooleanNode_setType s _ p _)
          case str v => exact Or.inl (validateStringNode_setType s _ p _)
          case arr elems => exact Or.inl (validateArrayNode_setType s _ p _)
          case obj fields => exact Or.inl (validateObjectNode_setType s _ p _)
  refine ⟨hkm, ?_, ?_, ?_⟩
  · rcases hsplit with heq | ⟨⟨mA, hA⟩, ⟨mB, hB⟩, _⟩
    · rw [heq]
    · rw [hA, hB]
      rfl
  · rcases hsplit with heq | ⟨⟨mA, hA⟩, ⟨mB, hB⟩, _⟩
    · intro e e' he he'
      rw [heq, he] at he'
      cases he'
      exact ⟨rfl, rfl⟩
    · intro e e' he he'
      rw [hB] at he
      rw [hA] at he'
      cases he
      cases he'
      exact ⟨rfl, rfl⟩
  · rcases hsplit with heq | ⟨⟨mA, hA⟩, ⟨mB, hB⟩, hnf⟩
    · intro _ _; exact heq
    · intro hko hfin
      obtain ⟨x, hdx, hxf⟩ := hnf hko
      have hxt := hfin x hdx
      rw [hxt] at hxf
      cases hxf


/-- Closed instantiation of `kind_union_permutation` at the schema
`{type:['string','null']}`, the permutation `['null','string']` and the
datum `null`: the kind test agrees and the full results coincide. -/
theorem kind_union_permutation_witness :
    kindMembershipOk (setType (leafSchema (.list [.string, .null]))
        (.list [.null, .string])).type .null =
      kindMembershipOk (leafSchema (.list [.string, .null])).type .null ∧
    validateNode (setType (leafSchema (.list [.string, .null])) (.list [.null, .string]))
        [] .null =
      validateNode (leafSchema (.list [.string, .null])) [] .null :=
  ⟨(kind_union_permutation (leafSchema (.list [.string, .null])) [.string, .null]
      [.null, .string] [] .null rfl (by decide)).1,
   (kind_union_permutation (leafSchema (.list [.string, .null])) [.string, .null]
      [.null, .string] [] .null rfl (by decide)).2.2.2 (by decide)
      (fun x hx => by cases hx)⟩

/-!
## Global result invariants

The remaining claims quantify over every schema and datum: failure
messages are never empty and never one of the per-kind type-mismatch
messages, failure paths extend the accumulated prefix, and the only
raised fault is a malformed nonempty `pattern`.  They are proved by
strong induction on the size of the datum, mirroring the recursion of
`validateNode`.
-/

/-- The four bare type-mismatch messages of the per-kind validators. -/
def BANNED_MESSAGES : List String :=
  ["Expected object", "Expected array", "Expected string", "Expected boolean"]

/-- A well-formed failure produced while validating below the prefix
`p`: non-empty message, path extending `p`, and none of the per-kind
type-mismatch messages. -/
def goodErr (p : ErrorPath) (e : ValidationError) : Prop :=
  e.message ≠ "" ∧ (∃ t, e.path = p ++ t) ∧ e.message ∉ BANNED_MESSAGES

/-- First character of a string, if any. -/
def headChar (m : String) : Option Char := m.data.head?

/-- Appending on the right preserves a known first character. -/
theorem headChar_append (a b : String) (c : Char) (h : headChar a = some c) :
    headChar (a ++ b) = some c := by
  unfold headChar at h ⊢
  rw [String.data_append]
  cases hd : a.data with
  | nil => rw [hd] at h; cases h
  | cons x xs => rw [hd] at h; simpa using h

/-- A message whose first character is not `E` is non-empty and is none
of the banned messages (which all start with `E`). -/
theorem good_of_headChar (m : String) (c : Char) (h : headChar m = some c)
    (hne : (c == 'E') = false) : m ≠ "" ∧ m ∉ BANNED_MESSAGES := by
  have hcE : c ≠ 'E' := by
    intro hc; rw [hc] at hne; simp at hne
  constructor
  · intro hc
    rw [hc] at h
    cases h
  · intro hmem
    simp [BANNED_MESSAGES] at hmem
    rcases hmem with hm | hm | hm | hm <;>
      (rw [hm] at h
       have hE : some 'E' = some c := h
       exact hcE (Option.some.inj hE).symm)

/-- A string longer than every banned message is not banned. -/
theorem not_banned_of_length (m : String) (h : 17 ≤ m.length) :
    m ∉ BANNED_MESSAGES := by
  intro hmem
  simp [BANNED_MESSAGES] at hmem
  rcases hmem with hm | hm | hm | hm <;> (rw [hm] at h; exact absurd h (by decide))

/-- A positive length means a non-empty string. -/
theorem ne_empty_of_length (m : String) (h : 0 < m.length) : m ≠ "" := by
  intro hc
  rw [hc] at h
  exact absurd h (by decide)

/-- A message containing a comma is not banned (no banned message
contains one). -/
theorem not_banned_of_comma (m : String) (h : ',' ∈ m.data) : m ∉ BANNED_MESSAGES := by
  intro hmem
  simp [BANNED_MESSAGES] at hmem
  rcases hmem with hm | hm | hm | hm <;> (rw [hm] at h; exact absurd h (by decide))

/-- Every kind name has at least four characters. -/
theorem kindName_length (k : JsonKind) : 4 ≤ (kindName k).length := by
  cases k <;> decide

/-- The kind-mismatch message has at least 22 characters. -/
theorem kindMismatchMessage_length (t : SchemaType) (d : Json) :
    22 ≤ (kindMismatchMessage t d).length := by
  unfold kindMismatchMessage
  have h1 : ("Expected " : String).length = 9 := rfl
  have h2 : (" but got " : String).length = 9 := rfl
  have h3 := kindName_length (getDataKind d)
  simp only [String.length_append, h1, h2]
  omega

/-- The kind-mismatch message is a well-formed failure message. -/
theorem kindMismatchMessage_good (t : SchemaType) (d : Json) :
    kindMismatchMessage t d ≠ "" ∧ kindMismatchMessage t d ∉ BANNED_MESSAGES := by
  have h := kindMismatchMessage_length t d
  exact ⟨ne_empty_of_length _ (by omega), not_banned_of_length _ (by omega)⟩

/-- The non-finite-number message `Expected <type>` is well formed
provided the permitted kinds contain `number` (which the dispatch
guarantees when a non-finite number reaches `validateNumberNode`). -/
theorem renderType_message_good (t : SchemaType) (h : JsonKind.number ∈ toKindList t) :
    ("Expected " ++ renderType t) ≠ "" ∧
    ("Expected " ++ renderType t) ∉ BANNED_MESSAGES := by
  cases t with
  | one k =>
    simp [toKindList] at h
    rw [← h]
    exact ⟨by decide, by decide⟩
  | list ks =>
    simp only [toKindList] at h
    constructor
    · apply ne_empty_of_length
      rw [String.length_append]
      have : ("Expected " : String).length = 9 := rfl
      omega
    · cases ks with
      | nil => cases h
      | cons a rest =>
        cases rest with
        | nil =>
          simp at h
          rw [← h]
          decide
        | cons b rest' =>
          apply not_banned_of_comma
          rw [String.data_append]
          refine List.mem_append_right _ ?_
          show ',' ∈ (renderType (.list (a :: b :: rest'))).data
          simp only [renderType, List.map, joinSep, String.data_append]
          refine List.mem_append_left _ (List.mem_append_right _ ?_)
          decide

/-- A `pattern` facet that cannot raise: absent, empty (falsy, so the
check is skipped), or compiling successfully. -/
def patternFacetOk : Option String → Bool
  | none => true
  | some pat => pat == "" || (compilePattern pat).isSome

mutual

/-- Every `pattern` facet in the schema tree satisfies
`patternFacetOk`: no traversal of such a schema can raise. -/
def schemaPatternsOk : JsonSchema → Bool
  | .mk f props ap items =>
    patternFacetOk f.pattern &&
    schemaListPatternsOk props &&
    (match ap with
     | some (.inr apSchema) => schemaPatternsOk apSchema
     | _ => true) &&
    (match items with
     | some itemSchema => schemaPatternsOk itemSchema
     | none => true)

/-- `schemaPatternsOk` over a property record. -/
def schemaListPatternsOk : List (String × JsonSchema) → Bool
  | [] => true
  | (_, node) :: rest => schemaPatternsOk node && schemaListPatternsOk rest

end

/-- The `required` loop only produces well-formed failures at the
current path. -/
theorem validateRequired_good (req : List String) (p : ErrorPath)
    (fields : List (String × Json)) (e : ValidationError)
    (h : validateRequired req p fields = some e) : goodErr p e := by
  induction req with
  | nil => simp [validateRequired] at h
  | cons key rest ih =>
    rw [validateRequired] at h
    by_cases hk : hasOwn fields key = true
    · simp only [hk, Bool.not_true, Bool.false_eq_true, if_false] at h
      exact ih h
    · simp only [Bool.not_eq_true] at hk
      simp only [hk, Bool.not_false, if_pos, Option.some.injEq] at h
      subst h
      have hh : headChar ("Missing required property " ++ sq ++ key ++ sq) = some 'M' := by
        apply headChar_append
        apply headChar_append
        apply headChar_append
        rfl
      have hg := good_of_headChar _ 'M' hh (by decide)
      exact ⟨hg.1, ⟨[], by simp⟩, hg.2⟩

/-- The string length checks only produce well-formed failures at the
current path. -/
theorem stringLengthError_good (s : JsonSchema) (p : ErrorPath) (v : String)
    (e : ValidationError) (h : stringLengthError s p v = some e) : goodErr p e := by
  have hmax : ∀ e', stringMaxLengthError s p v = some e' → goodErr p e' := by
    intro e' h'
    unfold stringMaxLengthError at h'
    rcases hm : s.facets.maxLength with _ | m <;> rw [hm] at h'
    · cases h'
    · by_cases hlt : jsGt (.fin (v.length : ℚ)) m = true
      · simp only [hlt, if_pos, Option.some.injEq] at h'
        subst h'
        have hg := good_of_headChar ("String length > " ++ jsNumToString m) 'S'
          (headChar_append _ _ _ rfl) (by decide)
        exact ⟨hg.1, ⟨[], by simp⟩, hg.2⟩
      · simp only [Bool.not_eq_true] at hlt
        simp only [hlt, Bool.false_eq_true, if_false] at h'
        cases h'
  unfold stringLengthError at h
  rcases hm : s.facets.minLength with _ | m <;> rw [hm] at h
  · exact hmax e h
  · by_cases hlt : jsLt (.fin (v.length : ℚ)) m = true
    · simp only [hlt, if_pos, Option.some.injEq] at h
      subst h
      have hg := good_of_headChar ("String length < " ++ jsNumToString m) 'S'
        (headChar_append _ _ _ rfl) (by decide)
      exact ⟨hg.1, ⟨[], by simp⟩, hg.2⟩
    · simp only [Bool.not_eq_true] at hlt
      simp only [hlt, Bool.false_eq_true, if_false] at h
      exact hmax e h

/-- The four numeric bound checks only produce well-formed failures at
the current path (every message starts with `Must`). -/
theorem numberBoundsError_good (s : JsonSchema) (p : ErrorPath) (x : JsNum)
    (e : ValidationError) (h : numberBoundsError s p x = some e) : goodErr p e := by
  have step : ∀ (m : JsNum) (pre : String), headChar pre = some 'M' →
      (⟨p, pre ++ jsNumToString m, some (.num x)⟩ : ValidationError).path = p →
      goodErr p ⟨p, pre ++ jsNumToString m, some (.num x)⟩ := by
    intro m pre hpre _
    have hg := good_of_headChar (pre ++ jsNumToString m) 'M'
      (headChar_append _ _ _ hpre) (by decide)
    exact ⟨hg.1, ⟨[], by simp⟩, hg.2⟩
  have h4 : ∀ e', numberExMaxError s p x = some e' → goodErr p e' := by
    intro e' h'
    unfold numberExMaxError at h'
    rcases hm : s.facets.exclusiveMaximum with _ | m <;> rw [hm] at h'
    · cases h'
    · by_cases hc : jsLt x m = true
      · simp only [hc, Bool.not_true, Bool.false_eq_true, if_false] at h'
        cases h'
      · simp only [Bool.not_eq_true] at hc
        simp only [hc, Bool.not_false, if_pos, Option.some.injEq] at h'
        subst h'
        exact step m "Must be < " rfl rfl
  have h3 : ∀ e', numberExMinError s p x = some e' → goodErr p e' := by
    intro e' h'
    unfold numberExMinError at h'
    rcases hm : s.facets.exclusiveMinimum with _ | m <;> rw [hm] at h'
    · exact h4 e' h'
    · by_cases hc : jsGt x m = true
      · simp only [hc, Bool.not_true, Bool.false_eq_true, if_false] at h'
        exact h4 e' h'
      · simp only [Bool.not_eq_true] at hc
        simp only [hc, Bool.not_false, if_pos, Option.some.injEq] at h'
        subst h'
        exact step m "Must be > " rfl rfl
  have h2 : ∀ e', numberMaxError s p x = some e' → goodErr p e' := by
    intro e' h'
    unfold numberMaxError at h'
    rcases hm : s.facets.maximum with _ | m <;> rw [hm] at h'
    · exact h3 e' h'
    · by_cases hc : jsGt x m = true
      · simp only [hc, if_pos, Option.some.injEq] at h'
        subst h'
        exact step m "Must be <= " rfl rfl
      · simp only [Bool.not_eq_true] at hc
        simp only [hc, Bool.false_eq_true, if_false] at h'
        exact h3 e' h'
  unfold numberBoundsError at h
  rcases hm : s.facets.minimum with _ | m <;> rw [hm] at h
  · exact h2 e h
  · by_cases hc : jsLt x m = true
    · simp only [hc, if_pos, Option.some.injEq] at h
      subst h
      exact step m "Must be >= " rfl rfl
    · simp only [Bool.not_eq_true] at hc
      simp only [hc, Bool.false_eq_true, if_false] at h
      exact h2 e h

/-- The array size checks only produce well-formed failures at the
current path (both messages are longer than every banned message). -/
theorem arrayBoundsError_good (s : JsonSchema) (p : ErrorPath) (len : Nat)
    (e : ValidationError) (h : arrayBoundsError s p len = some e) : goodErr p e := by
  have hlen1 : ∀ m : JsNum,
      17 ≤ ("Expected at least " ++ jsNumToString m ++ " items, got " ++ toString len).length := by
    intro m
    rw [String.length_append, String.length_append, String.length_append]
    have h1 : ("Expected at least " : String).length = 18 := rfl
    have h2 : (" items, got " : String).length = 12 := rfl
    omega
  have hlen2 : ∀ m : JsNum,
      17 ≤ ("Expected at most " ++ jsNumToString m ++ " items, got " ++ toString len).length := by
    intro m
    rw [String.length_append, String.length_append, String.length_append]
    have h1 : ("Expected at most " : String).length = 17 := rfl
    have h2 : (" items, got " : String).length = 12 := rfl
    omega
  have hmax : ∀ e', arrayMaxItemsError s p len = some e' → goodErr p e' := by
    intro e' h'
    unfold arrayMaxItemsError at h'
    rcases hm : s.facets.maxItems with _ | m <;> rw [hm] at h'
    · cases h'
    · by_cases hc : jsGt (.fin (len : ℚ)) m = true
      · simp only [hc, if_pos, Option.some.injEq] at h'
        subst h'
        exact ⟨ne_empty_of_length _ (Nat.lt_of_lt_of_le (by norm_num) (hlen2 m)),
               ⟨[], by simp⟩, not_banned_of_length _ (hlen2 m)⟩
      · simp only [Bool.not_eq_true] at hc
        simp only [hc, Bool.false_eq_true, if_false] at h'
        cases h'
  unfold arrayBoundsError at h
  rcases hm : s.facets.minItems with _ | m <;> rw [hm] at h
  · exact hmax e h
  · by_cases hc : jsLt (.fin (len : ℚ)) m = true
    · simp only [hc, if_pos, Option.some.injEq] at h
      subst h
      exact ⟨ne_empty_of_length _ (Nat.lt_of_lt_of_le (by norm_num) (hlen1 m)),
             ⟨[], by simp⟩, not_banned_of_length _ (hlen1 m)⟩
    · simp only [Bool.not_eq_true] at hc
      simp only [hc, Bool.false_eq_true, if_false] at h
      exact hmax e h

/-- The format checks only produce well-formed failures at the current
path. -/
theorem stringFormatChecks_good (s : JsonSchema) (p : ErrorPath) (v : String)
    (e : ValidationError) (h : stringFormatChecks s p v = .err e) : goodErr p e := by
  have hnot : ∀ e', notFormatCheck s p v = .err e' → goodErr p e' := by
    intro e' h'
    unfold notFormatCheck at h'
    rcases hm : s.facets.notFormat with _ | f <;> rw [hm] at h'
    · cases h'
    · by_cases hc : (!(f == "") && !(isFormatValid f v false)) = true
      · simp only [hc, if_pos, fail] at h'
        cases h'
        have hg := good_of_headChar ("Must not be " ++ f ++ " format") 'M'
          (headChar_append _ _ _ (headChar_append _ _ _ rfl)) (by decide)
        exact ⟨hg.1, ⟨[], by simp⟩, hg.2⟩
      · simp only [Bool.not_eq_true] at hc
        simp only [hc, Bool.false_eq_true, if_false] at h'
        cases h'
  unfold stringFormatChecks at h
  rcases hm : s.facets.format with _ | f <;> rw [hm] at h
  · exact hnot e h
  · by_cases hc : (!(f == "") && !(isFormatValid f v true)) = true
    · simp only [hc, if_pos, fail] at h
      cases h
      have hg := good_of_headChar ("Invalid " ++ f ++ " format") 'I'
        (headChar_append _ _ _ (headChar_append _ _ _ rfl)) (by decide)
      exact ⟨hg.1, ⟨[], by simp⟩, hg.2⟩
    · simp only [Bool.not_eq_true] at hc
      simp only [hc, Bool.false_eq_true, if_false] at h
      exact hnot e h

/-- Outcome analysis of `validateStringNode` on string data: failures
are well formed; a raised fault carries a nonempty pattern that fails
to compile; and no fault is raised when the `pattern` facet is sound. -/
theorem validateStringNode_cases (s : JsonSchema) (p : ErrorPath) (v : String) :
    (∀ e, validateStringNode s p (.str v) = .ok (.err e) → goodErr p e) ∧
    (∀ w, validateStringNode s p (.str v) = .error w → w ≠ "" ∧ compilePattern w = none) ∧
    (patternFacetOk s.facets.pattern = true → ∀ w, validateStringNode s p (.str v) ≠ .error w) := by
  have hfmt : ∀ e, (Except.ok (stringFormatChecks s p v) : VRes) = .ok (.err e) →
      goodErr p e := by
    intro e he
    injection he with he
    exact stringFormatChecks_good s p v e he
  simp only [validateStringNode]
  cases hsl : stringLengthError s p v with
  | some e0 =>
    refine ⟨?_, ?_, ?_⟩
    · intro e he
      injection he with he
      cases he
      exact stringLengthError_good s p v e0 hsl
    · intro w hw; cases hw
    · intro _ w hw; cases hw
  | none =>
    cases hp : s.facets.pattern with
    | none =>
      refine ⟨hfmt, ?_, ?_⟩
      · intro w hw; cases hw
      · intro _ w hw; cases hw
    | some pat =>
      rcases Bool.eq_false_or_eq_true (pat == "") with hpe | hpe <;>
        simp only [hpe, Bool.not_true, Bool.not_false, Bool.false_eq_true, if_false, if_pos]
      · refine ⟨hfmt, ?_, ?_⟩
        · intro w hw; cases hw
        · intro _ w hw; cases hw
      · cases hcp : compilePattern pat with
        | none =>
          refine ⟨?_, ?_, ?_⟩
          · intro e he; cases he
          · intro w hw
            injection hw with hw
            subst hw
            refine ⟨?_, hcp⟩
            intro hc
            subst hc
            simp at hpe
          · intro hok w hw
            rw [patternFacetOk, hpe, hcp] at hok
            simp at hok
        | some re =>
          rcases Bool.eq_false_or_eq_true (jsRegexTest re v) with hrt | hrt <;>
            simp only [hrt, Bool.not_true, Bool.not_false, Bool.false_eq_true, if_false,
                       if_pos]
          · refine ⟨hfmt, ?_, ?_⟩
            · intro w hw; cases hw
            · intro _ w hw; cases hw
          · refine ⟨?_, ?_, ?_⟩
            · intro e he
              injection he with he
              unfold fail at he
              cases he
              have hh : headChar ("String does not match pattern " ++ regExpToString pat) =
                  some 'S' := headChar_append _ _ _ rfl
              have hg := good_of_headChar _ 'S' hh (by decide)
              exact ⟨hg.1, ⟨[], by simp⟩, hg.2⟩
            · intro w hw; cases hw
            · intro _ w hw; cases hw

/-- Outcome analysis of `validateNumberNode` on number data: it never
raises, and its failures are well formed whenever the permitted kinds
contain `number` or the datum is a finite integer (the two ways the
dispatch can reach it). -/
theorem validateNumberNode_cases (s : JsonSchema) (p : ErrorPath) (x : JsNum)
    (hmem : x.finite = false → JsonKind.number ∈ toKindList s.type) :
    (∀ e, validateNumberNode s p (.num x) = .ok (.err e) → goodErr p e) ∧
    (∀ w, validateNumberNode s p (.num x) ≠ .error w) := by
  simp only [validateNumberNode]
  rcases Bool.eq_false_or_eq_true x.finite with hfin | hfin <;>
    simp only [hfin, Bool.not_true, Bool.not_false, Bool.false_eq_true, if_false, if_pos]
  · rcases Bool.eq_false_or_eq_true
        (s.type == SchemaType.one .integer && !(jsIsInteger (.num x))) with hint | hint <;>
      simp only [hint, Bool.false_eq_true, if_false, if_pos]
    · refine ⟨?_, ?_⟩
      · intro e he
        injection he with he
        unfold fail at he
        cases he
        exact ⟨(by decide : ("Expected integer" : String) ≠ ""), ⟨[], by simp⟩,
               (by decide : ("Expected integer" : String) ∉ BANNED_MESSAGES)⟩
      · intro w hw; cases hw
    · cases hb : numberBoundsError s p x with
      | some e0 =>
        refine ⟨?_, ?_⟩
        · intro e he
          injection he with he
          cases he
          exact numberBoundsError_good s p x e0 hb
        · intro w hw; cases hw
      | none =>
        refine ⟨?_, ?_⟩
        · intro e he; cases he
        · intro w hw; cases hw
  · refine ⟨?_, ?_⟩
    · intro e he
      injection he with he
      unfold fail at he
      cases he
      have hg := renderType_message_good s.type (hmem hfin)
      exact ⟨hg.1, ⟨[], by simp⟩, hg.2⟩
    · intro w hw; cases hw

/-- `validateBooleanNode` on boolean data always succeeds. -/
theorem validateBooleanNode_cases (s : JsonSchema) (p : ErrorPath) (b : Bool) :
    validateBooleanNode s p (.bool b) = .ok .ok := rfl

/-- When a non-finite number passes the kind-membership test, `number`
itself must be among the permitted kinds (the integer exception requires
`Number.isInteger`, false for NaN and the infinities). -/
theorem kindOk_nonfinite_mem (s : JsonSchema) (x : JsNum)
    (hko : kindMembershipOk s.type (.num x) = true) (hnf : x.finite = false) :
    JsonKind.number ∈ toKindList s.type := by
  have hji : jsIsInteger (.num x) = false := by
    cases x with
    | fin q => cases hnf
    | nan => rfl
    | inf b => rfl
  rw [kindMembershipOk] at hko
  simp only [getDataKind, hji, Bool.and_false, Bool.false_and, Bool.and_false,
             Bool.or_false] at hko
  exact List.elem_iff.mp hko

/-- A failure well formed below an extended prefix is well formed below
the original prefix. -/
theorem goodErr_extend (p seg : ErrorPath) (e : ValidationError)
    (h : goodErr (p ++ seg) e) : goodErr p e := by
  obtain ⟨h1, ⟨t, ht⟩, h3⟩ := h
  exact ⟨h1, ⟨seg ++ t, by rw [ht, List.append_assoc]⟩, h3⟩

/-- Unpacking `schemaPatternsOk` into its four components. -/
theorem schemaPatternsOk_spec (s : JsonSchema) (h : schemaPatternsOk s = true) :
    patternFacetOk s.facets.pattern = true ∧
    schemaListPatternsOk s.properties = true ∧
    (∀ apS, s.additionalProperties = some (.inr apS) → schemaPatternsOk apS = true) ∧
    (∀ itS, s.items = some itS → schemaPatternsOk itS = true) := by
  cases s with
  | mk f props ap items =>
    rw [schemaPatternsOk.eq_def] at h
    simp only [Bool.and_eq_true] at h
    obtain ⟨⟨⟨h1, h2⟩, h3⟩, h4⟩ := h
    refine ⟨h1, h2, ?_, ?_⟩
    · intro apS hap
      simp only [JsonSchema.additionalProperties] at hap
      rw [hap] at h3
      exact h3
    · intro itS hit
      simp only [JsonSchema.items] at hit
      rw [hit] at h4
      exact h4

/-- The inductive hypothesis threaded through the loop lemmas: the
result invariants hold for every datum of size at most `n`. -/
def NodeIH (n : Nat) : Prop :=
  ∀ d : Json, sizeOf d ≤ n → ∀ (s : JsonSchema) (p : ErrorPath),
    (∀ e, validateNode s p d = .ok (.err e) → goodErr p e) ∧
    (∀ w, validateNode s p d = .error w → w ≠ "" ∧ compilePattern w = none) ∧
    (schemaPatternsOk s = true → ∀ w, validateNode s p d ≠ .error w)

/-- Outcome analysis of the `items` loop. -/
theorem validateItems_cases (n : Nat) (ih : NodeIH n) :
    ∀ (elems : List Json), sizeOf elems ≤ n →
    ∀ (itemSchema : JsonSchema) (p : ErrorPath) (i : Nat),
      (∀ e, validateItems itemSchema p elems i = .ok (.err e) → goodErr p e) ∧
      (∀ w, validateItems itemSchema p elems i = .error w →
        w ≠ "" ∧ compilePattern w = none) ∧
      (schemaPatternsOk itemSchema = true →
        ∀ w, validateItems itemSchema p elems i ≠ .error w) := by
  intro elems
  induction elems with
  | nil =>
    intro _ itemSchema p i
    refine ⟨?_, ?_, ?_⟩
    · intro e he; rw [validateItems] at he; cases he
    · intro w hw; rw [validateItems] at hw; cases hw
    · intro _ w hw; rw [validateItems] at hw; cases hw
  | cons v rest ihl =>
    intro hsz itemSchema p i
    have hv : sizeOf v ≤ n := by
      have : sizeOf v < sizeOf (v :: rest) := by
        simp only [List.cons.sizeOf_spec]; omega
      omega
    have hrest : sizeOf rest ≤ n := by
      have : sizeOf rest < sizeOf (v :: rest) := by
        simp only [List.cons.sizeOf_spec]; omega
      omega
    have ihv := ih v hv itemSchema (p ++ [.idx i])
    have ihr := ihl hrest itemSchema p (i + 1)
    rw [validateItems]
    cases hres : validateNode itemSchema (p ++ [.idx i]) v with
    | error w0 =>
      refine ⟨?_, ?_, ?_⟩
      · intro e he; cases he
      · intro w hw
        injection hw with hw
        subst hw
        exact ihv.2.1 w0 hres
      · intro hok w _
        exact absurd hres (ihv.2.2 hok w0)
    | ok r =>
      cases r with
      | err e0 =>
        refine ⟨?_, ?_, ?_⟩
        · intro e he
          injection he with he
          cases he
          exact goodErr_extend p [.idx i] e0 (ihv.1 e0 hres)
        · intro w hw; cases hw
        · intro _ w hw; cases hw
      | ok => exact ihr

/-- Outcome analysis of the `additionalProperties`-as-schema loop. -/
theorem validateExtras_cases (n : Nat) (ih : NodeIH n) :
    ∀ (remaining : List (String × Json)), sizeOf remaining ≤ n →
    ∀ (apSchema : JsonSchema) (props : List (String × JsonSchema)) (p : ErrorPath),
      (∀ e, validateExtras apSchema props p remaining = .ok (.err e) → goodErr p e) ∧
      (∀ w, validateExtras apSchema props p remaining = .error w →
        w ≠ "" ∧ compilePattern w = none) ∧
      (schemaPatternsOk apSchema = true →
        ∀ w, validateExtras apSchema props p remaining ≠ .error w) := by
  intro remaining
  induction remaining with
  | nil =>
    intro _ apSchema props p
    refine ⟨?_, ?_, ?_⟩
    · intro e he; rw [validateExtras] at he; cases he
    · intro w hw; rw [validateExtras] at hw; cases hw
    · intro _ w hw; rw [validateExtras] at hw; cases hw
  | cons kv rest ihl =>
    obtain ⟨key, value⟩ := kv
    intro hsz apSchema props p
    have hv : sizeOf value ≤ n := by
      have : sizeOf value < sizeOf ((key, value) :: rest) := by
        simp only [List.cons.sizeOf_spec, Prod.mk.sizeOf_spec]; omega
      omega
    have hrest : sizeOf rest ≤ n := by
      have : sizeOf rest < sizeOf ((key, value) :: rest) := by
        simp only [List.cons.sizeOf_spec]; omega
      omega
    have ihv := ih value hv apSchema (p ++ [.key key])
    have ihr := ihl hrest apSchema props p
    rw [validateExtras]
    by_cases hin : jsInProps props key = true
    · simp only [hin, if_pos]
      exact ihr
    · simp only [Bool.not_eq_true] at hin
      simp only [hin, Bool.false_eq_true, if_false]
      cases hres : validateNode apSchema (p ++ [.key key]) value with
      | error w0 =>
        refine ⟨?_, ?_, ?_⟩
        · intro e he; cases he
        · intro w hw
          injection hw with hw
          subst hw
          exact ihv.2.1 w0 hres
        · intro hok w _
          exact absurd hres (ihv.2.2 hok w0)
      | ok r =>
        cases r with
        | err e0 =>
          refine ⟨?_, ?_, ?_⟩
          · intro e he
            injection he with he
            cases he
            exact goodErr_extend p [.key key] e0 (ihv.1 e0 hres)
          · intro w hw; cases hw
          · intro _ w hw; cases hw
        | ok => exact ihr

/-- Outcome analysis of the declared-properties loop. -/
theorem validateProps_cases (n : Nat) (ih : NodeIH n) :
    ∀ (props : List (String × JsonSchema)) (fields : List (String × Json)),
      sizeOf fields ≤ n → ∀ (p : ErrorPath),
      (∀ e, validateProps props p fields = .ok (.err e) → goodErr p e) ∧
      (∀ w, validateProps props p fields = .error w →
        w ≠ "" ∧ compilePattern w = none) ∧
      (schemaListPatternsOk props = true →
        ∀ w, validateProps props p fields ≠ .error w) := by
  intro props
  induction props with
  | nil =>
    intro fields _ p
    refine ⟨?_, ?_, ?_⟩
    · intro e he; rw [validateProps] at he; cases he
    · intro w hw; rw [validateProps] at hw; cases hw
    · intro _ w hw; rw [validateProps] at hw; cases hw
  | cons kv rest ihl =>
    obtain ⟨key, node⟩ := kv
    intro fields hsz p
    have ihr := ihl fields hsz p
    have hlp : ∀ (h : schemaListPatternsOk ((key, node) :: rest) = true),
        schemaPatternsOk node = true ∧ schemaListPatternsOk rest = true := by
      intro h
      rw [schemaListPatternsOk] at h
      simpa [Bool.and_eq_true] using h
    rw [validateProps]
    split
    · exact ⟨ihr.1, ihr.2.1, fun hok => ihr.2.2 (hlp hok).2⟩
    · rename_i v heq
      have hv : sizeOf v ≤ n := by
        have := jsLookup_sizeOf heq
        omega
      have ihv := ih v hv node (p ++ [.key key])
      cases hres : validateNode node (p ++ [.key key]) v with
      | error w0 =>
        refine ⟨?_, ?_, ?_⟩
        · intro e he; cases he
        · intro w hw
          injection hw with hw
          subst hw
          exact ihv.2.1 w0 hres
        · intro hok w _
          exact absurd hres (ihv.2.2 (hlp hok).1 w0)
      | ok r =>
        cases r with
        | err e0 =>
          refine ⟨?_, ?_, ?_⟩
          · intro e he
            injection he with he
            cases he
            exact goodErr_extend p [.key key] e0 (ihv.1 e0 hres)
          · intro w hw; cases hw
          · intro _ w hw; cases hw
        | ok =>
          exact ⟨ihr.1, ihr.2.1, fun hok => ihr.2.2 (hlp hok).2⟩

/-- Outcome analysis of `validateObjectNode` on object data. -/
theorem validateObjectNode_cases (n : Nat) (ih : NodeIH n) :
    ∀ (fields : List (String × Json)), sizeOf fields ≤ n →
    ∀ (s : JsonSchema) (p : ErrorPath),
      (∀ e, validateObjectNode s p (.obj fields) = .ok (.err e) → goodErr p e) ∧
      (∀ w, validateObjectNode s p (.obj fields) = .error w →
        w ≠ "" ∧ compilePattern w = none) ∧
      (schemaPatternsOk s = true →
        ∀ w, validateObjectNode s p (.obj fields) ≠ .error w) := by
  intro fields hsz s p
  simp only [validateObjectNode]
  cases hreq : validateRequired s.required p fields with
  | some e0 =>
    refine ⟨?_, ?_, ?_⟩
    · intro e he
      injection he with he
      cases he
      exact validateRequired_good s.required p fields e0 hreq
    · intro w hw; cases hw
    · intro _ w hw; cases hw
  | none =>
    have hp := validateProps_cases n ih s.properties fields hsz p
    cases hpr : validateProps s.properties p fields with
    | error w0 =>
      refine ⟨?_, ?_, ?_⟩
      · intro e he; cases he
      · intro w hw
        injection hw with hw
        subst hw
        exact hp.2.1 w0 hpr
      · intro hok w _
        exact absurd hpr (hp.2.2 (schemaPatternsOk_spec s hok).2.1 w0)
    | ok r =>
      cases r with
      | err e0 =>
        refine ⟨?_, ?_, ?_⟩
        · intro e he
          injection he with he
          cases he
          exact hp.1 e0 hpr
        · intro w hw; cases hw
        · intro _ w hw; cases hw
      | ok =>
        cases hap : s.additionalProperties with
        | none =>
          refine ⟨?_, ?_, ?_⟩
          · intro e he; cases he
          · intro w hw; cases hw
          · intro _ w hw; cases hw
        | some apv =>
          cases apv with
          | inl b =>
            cases b with
            | false =>
              cases hfu : findUnexpected s.properties fields with
              | some key =>
                refine ⟨?_, ?_, ?_⟩
                · intro e he
                  injection he with he
                  unfold fail at he
                  cases he
                  have hh : headChar ("Unexpected property " ++ sq ++ key ++ sq) =
                      some 'U' := by
                    apply headChar_append
                    apply headChar_append
                    apply headChar_append
                    rfl
                  have hg := good_of_headChar _ 'U' hh (by decide)
                  exact ⟨hg.1, ⟨[], by simp⟩, hg.2⟩
                · intro w hw; cases hw
                · intro _ w hw; cases hw
              | none =>
                refine ⟨?_, ?_, ?_⟩
                · intro e he; cases he
                · intro w hw; cases hw
                · intro _ w hw; cases hw
            | true =>
              refine ⟨?_, ?_, ?_⟩
              · intro e he; cases he
              · intro w hw; cases hw
              · intro _ w hw; cases hw
          | inr apSchema =>
            have hx := validateExtras_cases n ih fields hsz apSchema s.properties p
            refine ⟨hx.1, hx.2.1, ?_⟩
            intro hok
            exact hx.2.2 ((schemaPatternsOk_spec s hok).2.2.1 apSchema hap)

/-- Outcome analysis of `validateArrayNode` on array data. -/
theorem validateArrayNode_cases (n : Nat) (ih : NodeIH n) :
    ∀ (elems : List Json), sizeOf elems ≤ n →
    ∀ (s : JsonSchema) (p : ErrorPath),
      (∀ e, validateArrayNode s p (.arr elems) = .ok (.err e) → goodErr p e) ∧
      (∀ w, validateArrayNode s p (.arr elems) = .error w →
        w ≠ "" ∧ compilePattern w = none) ∧
      (schemaPatternsOk s = true →
        ∀ w, validateArrayNode s p (.arr elems) ≠ .error w) := by
  intro elems hsz s p
  simp only [validateArrayNode]
  cases hab : arrayBoundsError s p elems.length with
  | some e0 =>
    refine ⟨?_, ?_, ?_⟩
    · intro e he
      injection he with he
      cases he
      exact arrayBoundsError_good s p elems.length e0 hab
    · intro w hw; cases hw
    · intro _ w hw; cases hw
  | none =>
    cases hit : s.items with
    | some itemSchema =>
      have hi := validateItems_cases n ih elems hsz itemSchema p 0
      refine ⟨hi.1, hi.2.1, ?_⟩
      intro hok
      exact hi.2.2 ((schemaPatternsOk_spec s hok).2.2.2 itemSchema hit)
    | none =>
      refine ⟨?_, ?_, ?_⟩
      · intro e he; cases he
      · intro w hw; cases hw
      · intro _ w hw; cases hw

/-- The result invariants, by strong induction on the datum's size:
every failure is well formed (non-empty message, path extending the
prefix, none of the bare type-mismatch messages), every raised fault
carries a nonempty non-compiling pattern, and no fault is raised when
every pattern in the schema tree is sound. -/
theorem validate_master : ∀ n : Nat, NodeIH n := by
  intro n
  induction n with
  | zero =>
    intro d hd
    exfalso
    cases d <;> simp at hd
  | succ n ihn =>
    intro d hd s p
    rw [validateNode]
    rcases Bool.eq_false_or_eq_true (kindMembershipOk s.type d) with hko | hko <;>
      simp only [hko, Bool.not_true, Bool.not_false, Bool.false_eq_true, if_false, if_pos]
    case inr =>
      refine ⟨?_, ?_, ?_⟩
      · intro e he
        injection he with he
        unfold fail at he
        cases he
        have hg := kindMismatchMessage_good s.type d
        exact ⟨hg.1, ⟨[], by simp⟩, hg.2⟩
      · intro w hw; cases hw
      · intro _ w hw; cases hw
    case inl =>
      rcases Bool.eq_false_or_eq_true (isConstMismatch s d) with hcm | hcm <;>
        simp only [hcm, Bool.false_eq_true, if_false, if_pos]
      case inl =>
        refine ⟨?_, ?_, ?_⟩
        · intro e he
          injection he with he
          unfold fail at he
          cases he
          have hh : headChar ("Value must equal " ++ renderConst s.facets.constV) =
              some 'V' := headChar_append _ _ _ rfl
          have hg := good_of_headChar _ 'V' hh (by decide)
          exact ⟨hg.1, ⟨[], by simp⟩, hg.2⟩
        · intro w hw; cases hw
        · intro _ w hw; cases hw
      case inr =>
        rcases Bool.eq_false_or_eq_true (isEnumMismatch s d) with hem | hem <;>
          simp only [hem, Bool.false_eq_true, if_false, if_pos]
        case inl =>
          refine ⟨?_, ?_, ?_⟩
          · intro e he
            injection he with he
            unfold fail at he
            cases he
            exact ⟨(by decide : ("Value not in enum" : String) ≠ ""), ⟨[], by simp⟩,
                   (by decide : ("Value not in enum" : String) ∉ BANNED_MESSAGES)⟩
          · intro w hw; cases hw
          · intro _ w hw; cases hw
        case inr =>
          cases d with
          | null =>
            simp only [getDataKind]
            exact ⟨(fun e he => by cases he), (fun w hw => by cases hw),
                   (fun _ w hw => by cases hw)⟩
          | bool b =>
            simp only [getDataKind]
            rw [validateBooleanNode_cases]
            exact ⟨(fun e he => by cases he), (fun w hw => by cases hw),
                   (fun _ w hw => by cases hw)⟩
          | num x =>
            simp only [getDataKind]
            have hm := validateNumberNode_cases s p x
              (fun hnf => kindOk_nonfinite_mem s x hko hnf)
            exact ⟨hm.1, fun w hw => absurd hw (hm.2 w), fun _ w hw => absurd hw (hm.2 w)⟩
          | str v =>
            simp only [getDataKind]
            have hs' := validateStringNode_cases s p v
            refine ⟨hs'.1, hs'.2.1, ?_⟩
            intro hok
            exact hs'.2.2 (schemaPatternsOk_spec s hok).1
          | arr elems =>
            simp only [getDataKind]
            have helems : sizeOf elems ≤ n := by
              simp only [Json.arr.sizeOf_spec] at hd
              omega
            exact validateArrayNode_cases n ihn elems helems s p
          | obj fields =>
            simp only [getDataKind]
            have hfields : sizeOf fields ≤ n := by
              simp only [Json.obj.sizeOf_spec] at hd
              omega
            exact validateObjectNode_cases n ihn fields hfields s p

/-- C10.  No failure the validator returns ever carries one of the bare
per-kind type-mismatch messages: dispatch reaches a per-kind validator
only after the resolved kind already matches, so those branches never
fire, and no other message collides with them. -/
theorem type_mismatch_messages_unreachable (s : JsonSchema) (d : Json)
    (e : ValidationError) (h : validator s d = .ok (.err e)) :
    e.message ≠ "Expected object" ∧ e.message ≠ "Expected array" ∧
    e.message ≠ "Expected string" ∧ e.message ≠ "Expected boolean" := by
  have hg := (validate_master (sizeOf d) d le_rfl s []).1 e h
  have h3 := hg.2.2
  simpa [BANNED_MESSAGES] using h3

/-- Closed instantiation of `type_mismatch_messages_unreachable`: the
failure on `{type:'string'}` applied to `null` is the kind-mismatch
message, not the bare `Expected string`. -/
theorem type_mismatch_messages_unreachable_witness :
    validator (leafSchema (.one .string)) .null =
      .ok (.err ⟨[], "Expected string but got null", some .null⟩) ∧
    ("Expected string but got null" ≠ "Expected object" ∧
     "Expected string but got null" ≠ "Expected array" ∧
     "Expected string but got null" ≠ "Expected string" ∧
     "Expected string but got null" ≠ "Expected boolean") := by
  have heval : validator (leafSchema (.one .string)) .null =
      .ok (.err ⟨[], "Expected string but got null", some .null⟩) := by
    rw [validator, validateNode]
    simp [kindMembershipOk, getDataKind, toKindList, kindMismatchMessage, setDedup,
          setDedupGo, kindName, joinSep, leafSchema, emptyFacets, JsonSchema.type,
          JsonSchema.facets, fail]
  exact ⟨heval, type_mismatch_messages_unreachable (leafSchema (.one .string)) .null
    ⟨[], "Expected string but got null", some .null⟩ heval⟩

/-- `{type:'string', pattern:'('}`: a malformed pattern. -/
def parenPatternSchema : JsonSchema :=
  .mk { emptyFacets (.one .string) with pattern := some "(" } [] none none

/-- `{type:'string', minLength:5, pattern:'('}`. -/
def parenLenSchema : JsonSchema :=
  .mk { emptyFacets (.one .string) with
        minLength := some (.fin 5), pattern := some "(" } [] none none

/-- C7, counterexample.  On the schema `{type:'string', pattern:'('}`
and the string `'x'`, the compiled validator raises the malformed-
pattern fault instead of returning any ValidationResult, refuting the
claim's unrestricted "for every schema and every data value". -/
theorem validator_raises_on_malformed_pattern :
    validator parenPatternSchema (.str "x") = .error "(" ∧
    (∀ r : ValidationResult, validator parenPatternSchema (.str "x") ≠ .ok r) := by
  have hc : compilePattern "(" = none := rfl
  have heval : validator parenPatternSchema (.str "x") = .error "(" := by
    rw [validator, validateNode]
    simp [kindMembershipOk, getDataKind, toKindList, isConstMismatch, isEnumMismatch,
          parenPatternSchema, emptyFacets, JsonSchema.type, JsonSchema.facets,
          validateStringNode, stringLengthError, stringMaxLengthError, hc]
  exact ⟨heval, fun r hr => by rw [heval] at hr; cases hr⟩

/-- C7, amended.  Whenever the validator returns a result rather than
raising the malformed-pattern fault — in particular, always, when every
`pattern` facet of the schema tree is sound — that result is a success
or exactly one failure whose message is non-empty; and every failure's
path extends the accumulated prefix in root-to-leaf order (path entries
are property names and non-negative indices by construction of
`PathSeg`). -/
theorem validator_result_well_formed (s : JsonSchema) (d : Json) :
    (schemaPatternsOk s = true → ∃ r, validator s d = .ok r) ∧
    (∀ e, validator s d = .ok (.err e) → e.message ≠ "") ∧
    (∀ (p : ErrorPath) (e : ValidationError), validateNode s p d = .ok (.err e) →
      ∃ t, e.path = p ++ t) := by
  refine ⟨?_, ?_, ?_⟩
  · intro hok
    cases hv : validator s d with
    | error w =>
      exact absurd hv ((validate_master (sizeOf d) d le_rfl s []).2.2 hok w)
    | ok r => exact ⟨r, rfl⟩
  · intro e he
    exact ((validate_master (sizeOf d) d le_rfl s []).1 e he).1
  · intro p e he
    exact ((validate_master (sizeOf d) d le_rfl s p).1 e he).2.1

/-- Closed instantiation of `validator_result_well_formed`: the sound
schema `{type:'string'}` always returns a result on `null`, and the
returned failure's message is non-empty and its path extends the root
prefix. -/
theorem validator_result_well_formed_witness :
    (∃ r, validator (leafSchema (.one .string)) .null = .ok r) ∧
    ("Expected string but got null" ≠ "") ∧
    (∃ t : ErrorPath, ([] : ErrorPath) = [] ++ t) := by
  have heval : validator (leafSchema (.one .string)) .null =
      .ok (.err ⟨[], "Expected string but got null", some .null⟩) := by
    rw [validator, validateNode]
    simp [kindMembershipOk, getDataKind, toKindList, kindMismatchMessage, setDedup,
          setDedupGo, kindName, joinSep, leafSchema, emptyFacets, JsonSchema.type,
          JsonSchema.facets, fail]
  have hok : schemaPatternsOk (leafSchema (.one .string)) = true := by
    rw [schemaPatternsOk.eq_def]
    simp [leafSchema, emptyFacets, patternFacetOk, schemaListPatternsOk]
  refine ⟨(validator_result_well_formed (leafSchema (.one .string)) .null).1 hok,
          (validator_result_well_formed (leafSchema (.one .string)) .null).2.1 _ heval,
          (validator_result_well_formed (leafSchema (.one .string)) .null).2.2 [] _
            (by rw [← validator]; exact heval)⟩

/-- C9, counterexample.  The root schema of
`{type:'string', minLength:5, pattern:'('}` is a string node whose
pattern has invalid syntax, and on the string data `'ab'` the traversal
reaches that node — yet no fault is raised: the `minLength` failure is
returned as an ordinary value, because the pattern is only compiled
after the length checks pass. -/
theorem invalid_pattern_reached_without_fault :
    parenLenSchema.facets.pattern = some "(" ∧
    compilePattern "(" = none ∧
    getDataKind (.str "ab") = .string ∧
    validator parenLenSchema (.str "ab") =
      .ok (.err ⟨[], "String length < 5", some (.num (.fin 2))⟩) := by
  refine ⟨rfl, rfl, rfl, ?_⟩
  rw [validator, validateNode]
  have hl : ("ab" : String).length = 2 := rfl
  simp [kindMembershipOk, getDataKind, toKindList, isConstMismatch, isEnumMismatch,
        parenLenSchema, emptyFacets, JsonSchema.type, JsonSchema.facets,
        validateStringNode, stringLengthError, stringMaxLengthError, jsLt,
        jsNumToString, fail, hl]
  norm_num
  try decide

/-- C9, amended.  A fault is raised exactly when evaluation reaches the
*pattern check* of a string node — string data passing kind, `const`,
`enum` and both length checks — whose `pattern` facet is a nonempty
string with invalid syntax: (1) a schema whose patterns are all sound
never raises; (2) any raised fault carries a nonempty pattern string
that fails to compile; (3) at the pattern-check site, an invalid
nonempty pattern always raises; (4) concretely,
`{type:'string', pattern:'('}` on `'abc'` raises. -/
theorem pattern_fault_semantics :
    (∀ (s : JsonSchema) (d : Json), schemaPatternsOk s = true →
       ∀ w, validator s d ≠ .error w) ∧
    (∀ (s : JsonSchema) (d : Json) (w : String), validator s d = .error w →
       w ≠ "" ∧ compilePattern w = none) ∧
    (∀ (s : JsonSchema) (p : ErrorPath) (v pat : String),
       s.facets.pattern = some pat → pat ≠ "" → compilePattern pat = none →
       stringLengthError s p v = none →
       validateStringNode s p (.str v) = .error pat) ∧
    validator parenPatternSchema (.str "abc") = .error "(" := by
  refine ⟨?_, ?_, ?_, ?_⟩
  · intro s d hok w
    exact (validate_master (sizeOf d) d le_rfl s []).2.2 hok w
  · intro s d w hw
    exact (validate_master (sizeOf d) d le_rfl s []).2.1 w hw
  · intro s p v pat hpat hne hcomp hlen
    simp only [validateStringNode, hlen, hpat]
    have hb : (pat == "") = false := by
      simp [hne]
    simp only [hb, Bool.not_false, if_pos, hcomp]
  · have hc : compilePattern "(" = none := rfl
    rw [validator, validateNode]
    simp [kindMembershipOk, getDataKind, toKindList, isConstMismatch, isEnumMismatch,
          parenPatternSchema, emptyFacets, JsonSchema.type, JsonSchema.facets,
          validateStringNode, stringLengthError, stringMaxLengthError, hc]

/-- Closed instantiation of `pattern_fault_semantics`: the sound schema
`{type:'string', pattern:'ab'}` never raises on `'zz'`, and the
pattern-check site raises on the invalid pattern `'('`. -/
theorem pattern_fault_semantics_witness :
    validator patternAbSchema (.str "zz") ≠ .error "(" ∧
    validateStringNode parenPatternSchema [] (.str "abc") = .error "(" := by
  have hok : schemaPatternsOk patternAbSchema = true := by
    rw [schemaPatternsOk.eq_def]
    simp [patternAbSchema, emptyFacets, patternFacetOk, schemaListPatternsOk]
    rfl
  exact ⟨pattern_fault_semantics.1 patternAbSchema (.str "zz") hok "(",
         pattern_fault_semantics.2.2.1 parenPatternSchema [] "abc" "(" rfl (by decide)
           rfl rfl⟩

end JsonValid



